import Mathlib

/-!
Verification of the tile-matching connection engine of the minigame
repository: the `LinkGameAlgorithm` class (connection-path search) and the
board generator / solvability checker of `LinkGame.js`.

Modelling conventions:
* JS numbers used as grid coordinates are modelled as `Int` (bounds checks in
  the source compare against `0` and the grid dimensions exactly as the code
  does).
* A grid is a pair of dimensions together with a total function from
  coordinates to cells; the source only ever reads `grid[row][col]` after a
  bounds check, so the values of the function outside the bounds are never
  consulted by the algorithm.
* JS reference equality `cell1 === cell2` is modelled as structural equality
  of the cell records; for cells taken from a well-formed grid the two agree,
  because distinct grid slots carry distinct `row`/`col` fields.
* The rendering-only fields `x`, `y`, `color`, `shape`, `name` are omitted:
  the algorithm never reads them.  A pattern is its identifier.
* `Math.random()` driven code is parametrised by an explicit stream
  `rand : Nat -> Nat` consumed at an index that is threaded through.
-/

namespace LinkGame

/-- A pattern reference; only the identifier matters to the algorithm. -/
structure Pattern where
  id : Nat
  deriving DecidableEq

/-- A grid cell, as created by `initializeGrid` in LinkGame.js. -/
structure Cell where
  row : Int
  col : Int
  pattern : Option Pattern
  visible : Bool
  matched : Bool
  deriving DecidableEq

/-- A bare (row, col) coordinate, as used for the corner objects the JS code
builds on the fly. -/
structure Coord where
  row : Int
  col : Int
  deriving DecidableEq

/-- A point of a connection path, `{x: col, y: row}` in the source. -/
structure Point where
  x : Int
  y : Int
  deriving DecidableEq

/-- The board: `gridRows = grid.length`, `gridCols = grid[0].length`, and the
cell lookup `grid[row][col]`. -/
structure Grid where
  gridRows : Nat
  gridCols : Nat
  cellAt : Int → Int → Cell

/-- The coordinate of a cell, for the positions the path checks work on. -/
def Cell.coord (c : Cell) : Coord := ⟨c.row, c.col⟩

/-- The integers `lo, lo+1, ..., hi-1`: the index sequence of a JS loop
`for (let i = lo; i < hi; i++)`. -/
def intRange (lo hi : Int) : List Int :=
  (List.range (hi - lo).toNat).map (fun (n : Nat) => lo + (n : Int))

/-- `isCellEmpty` (part_000 lines 172-179): a position is empty when it is
in bounds and its cell is invisible or already matched; out-of-range
positions are not empty. -/
def isCellEmpty (g : Grid) (row col : Int) : Bool :=
  if row < 0 || (g.gridRows : Int) ≤ row || col < 0 || (g.gridCols : Int) ≤ col then
    false
  else
    let cell := g.cellAt row col
    !cell.visible || cell.matched

/-- `isValidCell` (part_000 lines 184-189): bounds check on the cell's own
coordinates.  The JS null check has no counterpart: cells are values here. -/
def isValidCell (g : Grid) (cell : Cell) : Bool :=
  decide (0 ≤ cell.row) && decide (cell.row < (g.gridRows : Int)) &&
  decide (0 ≤ cell.col) && decide (cell.col < (g.gridCols : Int))

/-- `checkHorizontalLine` (part_000 lines 67-79): every column strictly
between the two on the first argument's row must be empty. -/
def checkHorizontalLine (g : Grid) (c1 c2 : Coord) : Bool :=
  let minCol := min c1.col c2.col
  let maxCol := max c1.col c2.col
  (intRange (minCol + 1) maxCol).all (fun col => isCellEmpty g c1.row col)

/-- `checkVerticalLine` (part_000 lines 84-96). -/
def checkVerticalLine (g : Grid) (c1 c2 : Coord) : Bool :=
  let minRow := min c1.row c2.row
  let maxRow := max c1.row c2.row
  (intRange (minRow + 1) maxRow).all (fun row => isCellEmpty g row c1.col)

/-- `checkStraightLine` (part_000 lines 50-62). -/
def checkStraightLine (g : Grid) (c1 c2 : Coord) : Bool :=
  if c1.row = c2.row then checkHorizontalLine g c1 c2
  else if c1.col = c2.col then checkVerticalLine g c1 c2
  else false

/-- `isValidCorner` (part_000 lines 165-167). -/
def isValidCorner (g : Grid) (corner : Coord) : Bool :=
  isCellEmpty g corner.row corner.col

/-- `checkOneCorner` (part_000 lines 101-121); the JS truthy result object
`{type, corners: [corner]}` is modelled as `some corner`. -/
def checkOneCorner (g : Grid) (c1 c2 : Coord) : Option Coord :=
  let corner1 : Coord := ⟨c1.row, c2.col⟩
  let corner2 : Coord := ⟨c2.row, c1.col⟩
  if isValidCorner g corner1 && checkStraightLine g c1 corner1 &&
      checkStraightLine g corner1 c2 then
    some corner1
  else if isValidCorner g corner2 && checkStraightLine g c1 corner2 &&
      checkStraightLine g corner2 c2 then
    some corner2
  else
    none

/-- Success condition of one row of the horizontal scan of `checkTwoCorners`
(part_000 lines 128-141). -/
def twoCornersRowOk (g : Grid) (c1 c2 : Coord) (row : Int) : Bool :=
  let corner1 : Coord := ⟨row, c1.col⟩
  let corner2 : Coord := ⟨row, c2.col⟩
  isValidCorner g corner1 && isValidCorner g corner2 &&
    (checkStraightLine g c1 corner1 && checkHorizontalLine g corner1 corner2 &&
     checkStraightLine g corner2 c2)

/-- Success condition of one column of the vertical scan of `checkTwoCorners`
(part_000 lines 144-157). -/
def twoCornersColOk (g : Grid) (c1 c2 : Coord) (col : Int) : Bool :=
  let corner1 : Coord := ⟨c1.row, col⟩
  let corner2 : Coord := ⟨c2.row, col⟩
  isValidCorner g corner1 && isValidCorner g corner2 &&
    (checkStraightLine g c1 corner1 && checkVerticalLine g corner1 corner2 &&
     checkStraightLine g corner2 c2)

/-- `checkTwoCorners` (part_000 lines 126-160): scan rows `0..gridRows-1` in
ascending order skipping the endpoints' rows, returning the corners of the
first success, then likewise the columns; modelled with `List.find?` over the
loop index sequence. -/
def checkTwoCorners (g : Grid) (c1 c2 : Coord) : Option (Coord × Coord) :=
  match ((intRange 0 g.gridRows).filter
      (fun row => !(row == c1.row || row == c2.row))).find?
      (twoCornersRowOk g c1 c2) with
  | some row => some (⟨row, c1.col⟩, ⟨row, c2.col⟩)
  | none =>
    match ((intRange 0 g.gridCols).filter
        (fun col => !(col == c1.col || col == c2.col))).find?
        (twoCornersColOk g c1 c2) with
    | some col => some (⟨c1.row, col⟩, ⟨c2.row, col⟩)
    | none => none

/-- `canConnect` (part_000 lines 23-45): validity, identity and pattern
checks, then the three geometric checks.  Note there is no `matched` or
`visible` check on the endpoints themselves. -/
def canConnect (g : Grid) (cell1 cell2 : Cell) : Bool :=
  if !isValidCell g cell1 || !isValidCell g cell2 then false
  else if cell1 = cell2 then false
  else
    match cell1.pattern, cell2.pattern with
    | none, _ => false
    | _, none => false
    | some p1, some p2 =>
      if p1.id = p2.id then
        checkStraightLine g cell1.coord cell2.coord ||
        (checkOneCorner g cell1.coord cell2.coord).isSome ||
        (checkTwoCorners g cell1.coord cell2.coord).isSome
      else false

/-- `getConnectionPath` (part_000 lines 270-304): re-runs the three geometric
checks and emits the coordinate list; it performs none of `canConnect`'s
validity / identity / pattern checks. -/
def getConnectionPath (g : Grid) (cell1 cell2 : Cell) : Option (List Point) :=
  if checkStraightLine g cell1.coord cell2.coord then
    some [⟨cell1.col, cell1.row⟩, ⟨cell2.col, cell2.row⟩]
  else
    match checkOneCorner g cell1.coord cell2.coord with
    | some corner =>
      some [⟨cell1.col, cell1.row⟩, ⟨corner.col, corner.row⟩,
            ⟨cell2.col, cell2.row⟩]
    | none =>
      match checkTwoCorners g cell1.coord cell2.coord with
      | some (corner1, corner2) =>
        some [⟨cell1.col, cell1.row⟩, ⟨corner1.col, corner1.row⟩,
              ⟨corner2.col, corner2.row⟩, ⟨cell2.col, cell2.row⟩]
      | none => none

/-- `canConnectInGrid` (LinkGame.js lines 2354-2380), the variant used by the
solvability simulation: identical to `canConnect` except for the extra
endpoint check `if (cell1.matched || cell2.matched) return false`.  The
source duplicates the geometric helpers verbatim with an explicit grid
parameter (`checkStraightLineInGrid`, ..., lines 2385-2527); the embedding
already threads the grid, so the same definitions serve both variants. -/
def canConnectInGrid (g : Grid) (cell1 cell2 : Cell) : Bool :=
  if !isValidCell g cell1 || !isValidCell g cell2 then false
  else if cell1 = cell2 then false
  else
    match cell1.pattern, cell2.pattern with
    | none, _ => false
    | _, none => false
    | some p1, some p2 =>
      if p1.id = p2.id then
        if cell1.matched || cell2.matched then false
        else
          checkStraightLine g cell1.coord cell2.coord ||
          (checkOneCorner g cell1.coord cell2.coord).isSome ||
          (checkTwoCorners g cell1.coord cell2.coord).isSome
      else false

/-- The row-major sequence of coordinates visited by the nested
`for (row) for (col)` scans of the source. -/
def rowMajorCoords (rows cols : Nat) : List Coord :=
  (intRange 0 rows).flatMap (fun row => (intRange 0 cols).map (fun col => ⟨row, col⟩))

/-- Whether the scan at a coordinate sees a visible, unmatched cell. -/
def visibleAt (g : Grid) (p : Coord) : Bool :=
  (g.cellAt p.row p.col).visible && !(g.cellAt p.row p.col).matched

/-- `getVisibleCells` (LinkGame.js lines 1170-1186 and part_000 lines
232-245): all visible, unmatched cells in row-major scan order.  The JS list
holds mutable cell references; the coordinate paired with each cell records
which grid slot that reference denotes. -/
def getVisibleCells (g : Grid) : List (Coord × Cell) :=
  ((rowMajorCoords g.gridRows g.gridCols).filter (visibleAt g)).map
    (fun p => (p, g.cellAt p.row p.col))

/-- Whether a cell carries the pattern with the given id. -/
def cellHasId (id : Nat) (c : Cell) : Bool :=
  match c.pattern with
  | some p => p.id == id
  | none => false

/-- The number of visible, unmatched cells holding the pattern with the given
id — the quantity the parity invariant speaks about. -/
def countVisibleWithId (g : Grid) (id : Nat) : Nat :=
  ((getVisibleCells g).filter (fun pc => cellHasId id pc.2)).length

/-- `validateGameState` (part_000 lines 348-369, duplicated at LinkGame.js
line 2212): every pattern id occurring among the visible cells occurs an
even number of times. -/
def validateGameState (g : Grid) : Bool :=
  let ids := ((getVisibleCells g).filterMap (fun pc => pc.2.pattern.map Pattern.id)).dedup
  ids.all (fun id => countVisibleWithId g id % 2 == 0)

/-- The ordered pairs `(cells[i], cells[j])`, `i < j`, of one pattern group
(the nested `i`/`j` loops of `findAllConnectablePairs`). -/
def pairsWithin (cells : List (Coord × Cell)) : List ((Coord × Cell) × (Coord × Cell)) :=
  match cells with
  | [] => []
  | x :: xs => (xs.map (fun y => (x, y))) ++ pairsWithin xs

/-- `findAllConnectablePairsInGrid` (LinkGame.js lines 2316-2352): group the
visible cells by pattern id (a JS object with integer-like keys iterates
them in ascending numeric order), then collect every pair within a group
that `canConnectInGrid` accepts. -/
def findAllConnectablePairsInGrid (g : Grid) :
    List ((Coord × Cell) × (Coord × Cell)) :=
  let visibleCells := (getVisibleCells g).filter (fun pc => pc.2.pattern.isSome)
  let ids := ((visibleCells.filterMap (fun pc => pc.2.pattern.map Pattern.id)).dedup).insertionSort (· ≤ ·)
  ids.flatMap (fun id =>
    (pairsWithin (visibleCells.filter (fun pc => cellHasId id pc.2))).filter
      (fun pr => canConnectInGrid g pr.1.2 pr.2.2))

/-- Setting `cell.matched = true` on the grid slot a cell reference denotes. -/
def setCellMatched (g : Grid) (p : Coord) : Grid :=
  { g with cellAt := fun r c =>
      if r = p.row ∧ c = p.col then { g.cellAt r c with matched := true }
      else g.cellAt r c }

/-- Overwriting `cell.pattern` on the grid slot a cell reference denotes. -/
def setCellPattern (g : Grid) (p : Coord) (pat : Pattern) : Grid :=
  { g with cellAt := fun r c =>
      if r = p.row ∧ c = p.col then { g.cellAt r c with pattern := some pat }
      else g.cellAt r c }

/-- The iteration body of `simulateElimination` (LinkGame.js lines
2279-2311): repeatedly remove the first connectable pair; when none is left,
succeed iff no visible cell remains; succeed early once the eliminated count
reaches the cell total; report failure when the iteration bound runs out. -/
def simulateEliminationLoop (totalCells : Nat) :
    Nat → Nat → Grid → Bool
  | _, 0, _ => false
  | eliminatedCount, fuel + 1, g =>
    match findAllConnectablePairsInGrid g with
    | [] => (getVisibleCells g).length == 0
    | pair :: _ =>
      let g1 := setCellMatched (setCellMatched g pair.1.1) pair.2.1
      if totalCells ≤ eliminatedCount + 2 then true
      else simulateEliminationLoop totalCells (eliminatedCount + 2) fuel g1

/-- `simulateElimination` with its `maxIterations = totalCells * 2` bound. -/
def simulateElimination (g : Grid) : Bool :=
  let totalCells := g.gridRows * g.gridCols
  simulateEliminationLoop totalCells 0 (totalCells * 2) g

/-- `createGridCopy` (LinkGame.js lines 2254-2277), value-level view: a fresh
grid whose cells reproduce the original's coordinates, pattern, `visible`
and `matched` (the rendering fields `x`, `y` are not modelled). -/
def createGridCopy (g : Grid) : Grid :=
  { gridRows := g.gridRows
    gridCols := g.gridCols
    cellAt := fun row col =>
      let originalCell := g.cellAt row col
      { row := row, col := col, pattern := originalCell.pattern,
        visible := originalCell.visible, matched := originalCell.matched } }

/-- `isBoardSolvable` (LinkGame.js lines 2238-2249): parity validation, then
the elimination simulation on a deep copy. -/
def isBoardSolvable (g : Grid) : Bool :=
  if !validateGameState g then false
  else simulateElimination (createGridCopy g)

/-- Modelled from the spec: `strictBoardValidation` is invoked by
`fillGridWithPatterns` (LinkGame.js lines 1105, 1115, 1124) but is defined
nowhere in the repository.  Spec section 4.3 step 3 describes the validation
as the pairing-parity check plus the full-elimination simulation of section
4.3.1, which is exactly what the class's `isBoardSolvable` implements, so
the missing method is modelled as that check. -/
def strictBoardValidation (g : Grid) : Bool :=
  isBoardSolvable g

/-- Exchange of the entries at two indices, `[a[i], a[j]] = [a[j], a[i]]`. -/
def swapEntries (l : List α) (i j : Nat) : List α :=
  match l.get? i, l.get? j with
  | some x, some y => (l.set i y).set j x
  | _, _ => l

/-- The descending loop of `shuffleArray` (LinkGame.js lines 1188-1196):
`for (i = length-1; i > 0; i--)` swap index `i` (here `i+1`) with a random
index `j <= i`; `Math.floor(Math.random() * (i + 1))` is modelled as the next
stream value reduced mod `i + 1`. -/
def shuffleLoop (rand : Nat → Nat) : List α → Nat → Nat → List α × Nat
  | l, 0, k => (l, k)
  | l, i + 1, k =>
    let j := rand k % (i + 2)
    shuffleLoop rand (swapEntries l (i + 1) j) i (k + 1)

/-- `shuffleArray`: a Fisher-Yates pass over the whole list. -/
def shuffleArray (rand : Nat → Nat) (l : List α) (k : Nat) : List α × Nat :=
  shuffleLoop rand l (l.length - 1) k

/-- `n` repeated `shuffleArray` passes (`for (let i = 0; i < 5; i++)` in
`deepReshuffleGrid`). -/
def shuffleTimes (rand : Nat → Nat) : Nat → List α × Nat → List α × Nat
  | 0, s => s
  | n + 1, (l, k) => shuffleTimes rand n (shuffleArray rand l k)

/-- The strict pattern-pair multiset: `patternPairs.push(pattern, pattern)`
for each available pattern (LinkGame.js lines 1060-1063). -/
def mkPatternPairs (availablePatterns : List Pattern) : List Pattern :=
  availablePatterns.flatMap (fun p => [p, p])

/-- The grid-filling pass of `fillGridWithPatterns` (LinkGame.js lines
1075-1091): scan row-major; while the running index is below the pair count
assign the next pair and make the cell visible and unmatched, afterwards
make the cell invisible and matched.  The running `patternIndex` equals the
linear index `row * gridCols + col` of the scan as long as it is below the
pair count, and the guard `patternIndex < totalCells` is subsumed because
every in-bounds linear index is below `gridRows * gridCols`. -/
def fillGrid (g : Grid) (patternPairs : List Pattern) : Grid :=
  { g with cellAt := fun row col =>
      if 0 ≤ row ∧ row < (g.gridRows : Int) ∧ 0 ≤ col ∧ col < (g.gridCols : Int) then
        let patternIndex := row.toNat * g.gridCols + col.toNat
        match patternPairs.get? patternIndex with
        | some pat =>
          { g.cellAt row col with pattern := some pat, visible := true, matched := false }
        | none =>
          { g.cellAt row col with visible := false, matched := true }
      else g.cellAt row col }

/-- The reassignment loop shared by `reshuffleGrid` and `deepReshuffleGrid`:
write the patterns, in order, into the listed grid slots, stopping when the
pattern list runs out. -/
def assignPatterns (g : Grid) : List Coord → List Pattern → Grid
  | _, [] => g
  | [], _ => g
  | p :: ps, pat :: pats => assignPatterns (setCellPattern g p pat) ps pats

/-- `deepReshuffleGrid` (LinkGame.js lines 1136-1165): collect the patterns
of the visible cells in scan order, shuffle them five times, and write them
back onto the same visible cells in scan order. -/
def deepReshuffleGrid (g : Grid) (rand : Nat → Nat) (k : Nat) : Grid × Nat :=
  let visibleCells := getVisibleCells g
  let patterns := visibleCells.filterMap (fun pc => pc.2.pattern)
  let shuffled := shuffleTimes rand 5 (patterns, k)
  (assignPatterns g (visibleCells.map Prod.fst) shuffled.1, shuffled.2)

/-- The generate-validate retry loop of `fillGridWithPatterns` (LinkGame.js
lines 1055-1119), instrumented with the number of loop iterations executed
and the number of deep reshuffles performed.  Each iteration rebuilds and
shuffles the pair multiset, fills the grid, and validates; on the final
failing retry a single deep reshuffle is attempted, after which the loop
exits regardless of the outcome because the retry counter has reached the
ceiling. -/
def fillLoop (availablePatterns : List Pattern) (rand : Nat → Nat)
    (maxRetries : Nat) (g : Grid) (k retryCount : Nat) : Grid × Nat × Nat :=
  if h : retryCount < maxRetries then
    let patternPairs := mkPatternPairs availablePatterns
    if patternPairs.length % 2 ≠ 0 then
      let r := fillLoop availablePatterns rand maxRetries g k (retryCount + 1)
      (r.1, r.2.1 + 1, r.2.2)
    else
      let shuffled := shuffleArray rand patternPairs k
      let g1 := fillGrid g shuffled.1
      if validateGameState g1 = false then
        let r := fillLoop availablePatterns rand maxRetries g1 shuffled.2 (retryCount + 1)
        (r.1, r.2.1 + 1, r.2.2)
      else if strictBoardValidation g1 then
        (g1, 1, 0)
      else if maxRetries ≤ retryCount + 1 then
        let g2 := deepReshuffleGrid g1 rand shuffled.2
        (g2.1, 1, 1)
      else
        let r := fillLoop availablePatterns rand maxRetries g1 shuffled.2 (retryCount + 1)
        (r.1, r.2.1 + 1, r.2.2)
  else
    (g, 0, 0)
termination_by maxRetries - retryCount
decreasing_by all_goals omega

/-- `fillGridWithPatterns` (LinkGame.js lines 1047-1131): the available
patterns are `this.patterns.slice(0, patternCount)`, the retry ceiling is
100, and the loop starts with a zero retry count.  Returns the final grid
together with the iteration and deep-reshuffle counts. -/
def fillGridWithPatterns (patterns : List Pattern) (patternCount : Nat)
    (rand : Nat → Nat) (g : Grid) : Grid × Nat × Nat :=
  fillLoop (patterns.take patternCount) rand 100 g 0 0

/-!
Reference-level model for the frame property of the solvability check.

JS cells are mutable objects on a heap; `this.grid` holds references to
them, `createGridCopy` allocates fresh objects, and `simulateElimination`
mutates `matched` through the references found in the copy.  To state that
the live grid is untouched, cells are placed in an explicit store (a list
addressed by natural numbers) and a grid becomes a table of references.
-/

/-- A grid of references into a cell store. -/
structure RefGrid where
  gridRows : Nat
  gridCols : Nat
  refAt : Int → Int → Nat

/-- The placeholder a dangling reference reads as; a well-formed live grid
never dereferences it. -/
def defaultCell : Cell := ⟨0, 0, none, false, true⟩

/-- Reading every cell of a reference grid out of the store yields the value
grid the pure algorithm runs on. -/
def derefGrid (store : List Cell) (rg : RefGrid) : Grid :=
  { gridRows := rg.gridRows
    gridCols := rg.gridCols
    cellAt := fun r c => store.getD (rg.refAt r c) defaultCell }

/-- `cell.matched = true` through a reference: overwrite the store entry. -/
def writeMatched (store : List Cell) (ref : Nat) : List Cell :=
  match store.get? ref with
  | some cell => store.set ref { cell with matched := true }
  | none => store

/-- `createGridCopy` (LinkGame.js lines 2254-2277) at the reference level:
allocate one fresh cell per grid slot at the end of the store, copying the
original's coordinates, pattern, `visible` and `matched` by value, and
return the reference table of the copy. -/
def createGridCopyRefs (store : List Cell) (rg : RefGrid) : List Cell × RefGrid :=
  let base := store.length
  let copyCells := (rowMajorCoords rg.gridRows rg.gridCols).map (fun p =>
    let originalCell := store.getD (rg.refAt p.row p.col) defaultCell
    { row := p.row, col := p.col, pattern := originalCell.pattern,
      visible := originalCell.visible, matched := originalCell.matched : Cell })
  (store ++ copyCells,
   { gridRows := rg.gridRows
     gridCols := rg.gridCols
     refAt := fun r c => base + (r.toNat * rg.gridCols + c.toNat) })

/-- `simulateElimination` at the reference level: each iteration reads the
simulated grid out of the store, finds the connectable pairs, and sets
`matched` through the references of the first pair's two cells. -/
def simulateEliminationLoopRefs (rg : RefGrid) (totalCells : Nat) :
    Nat → Nat → List Cell → Bool × List Cell
  | _, 0, store => (false, store)
  | eliminatedCount, fuel + 1, store =>
    match findAllConnectablePairsInGrid (derefGrid store rg) with
    | [] => ((getVisibleCells (derefGrid store rg)).length == 0, store)
    | pair :: _ =>
      let store1 := writeMatched store (rg.refAt pair.1.1.row pair.1.1.col)
      let store2 := writeMatched store1 (rg.refAt pair.2.1.row pair.2.1.col)
      if totalCells ≤ eliminatedCount + 2 then (true, store2)
      else simulateEliminationLoopRefs rg totalCells (eliminatedCount + 2) fuel store2

/-- `isBoardSolvable` (LinkGame.js lines 2238-2249) at the reference level:
validate, deep-copy, and run the elimination simulation on the copy;
returns the verdict together with the final state of the store. -/
def isBoardSolvableRefs (store : List Cell) (live : RefGrid) : Bool × List Cell :=
  if !validateGameState (derefGrid store live) then (false, store)
  else
    let copied := createGridCopyRefs store live
    let totalCells := live.gridRows * live.gridCols
    simulateEliminationLoopRefs copied.2 totalCells 0 (totalCells * 2) copied.1

/-! ### Generic helper lemmas -/

theorem mem_intRange {lo hi x : Int} : x ∈ intRange lo hi ↔ lo ≤ x ∧ x < hi := by
  unfold intRange
  rw [List.mem_map]
  constructor
  · rintro ⟨n, hn, rfl⟩
    rw [List.mem_range] at hn
    omega
  · intro hx
    exact ⟨(x - lo).toNat, List.mem_range.mpr (by omega), by omega⟩

theorem intRange_pairwise_lt (lo hi : Int) : (intRange lo hi).Pairwise (· < ·) := by
  unfold intRange
  refine List.Pairwise.map _ (fun a b hab => ?hlt) (List.pairwise_lt_range _)
  omega

theorem intRange_nodup (lo hi : Int) : (intRange lo hi).Nodup :=
  (intRange_pairwise_lt lo hi).imp (fun h => by omega)

theorem find?_congr {p q : α → Bool} {l : List α}
    (h : ∀ x ∈ l, p x = q x) : l.find? p = l.find? q := by
  induction l with
  | nil => rfl
  | cons a l ih =>
    have ha := h a (by simp)
    by_cases hp : p a = true
    · rw [List.find?_cons_of_pos _ hp, List.find?_cons_of_pos _ (ha ▸ hp)]
    · have hq : ¬ q a = true := by rw [← ha]; exact hp
      rw [List.find?_cons_of_neg _ hp, List.find?_cons_of_neg _ hq]
      exact ih (fun x hx => h x (by simp [hx]))

theorem find?_eq_some_of_sorted {p : α → Bool} {l : List α} {x : α}
    [LinearOrder α] (hs : l.Pairwise (· < ·)) (hx : x ∈ l) (hpx : p x = true)
    (hmin : ∀ y ∈ l, y < x → p y = false) : l.find? p = some x := by
  induction l with
  | nil => cases hx
  | cons a l ih =>
    rcases List.mem_cons.mp hx with rfl | hx
    · exact List.find?_cons_of_pos _ hpx
    · have halt : a < x := (List.pairwise_cons.mp hs).1 x hx
      have hpa : p a = false := hmin a (by simp) halt
      rw [List.find?_cons_of_neg _ (by simp [hpa])]
      exact ih (List.pairwise_cons.mp hs).2 hx
        (fun y hy => hmin y (by simp [hy]))

/-! ### Claim C1: consistency of `getConnectionPath` with `canConnect` -/

/-- The positive geometric disjunction both functions branch on. -/
theorem getConnectionPath_isSome (g : Grid) (a b : Cell) :
    (getConnectionPath g a b).isSome =
      (checkStraightLine g a.coord b.coord ||
       (checkOneCorner g a.coord b.coord).isSome ||
       (checkTwoCorners g a.coord b.coord).isSome) := by
  unfold getConnectionPath
  by_cases hsl : checkStraightLine g a.coord b.coord = true
  · simp [hsl]
  · simp only [Bool.not_eq_true] at hsl
    cases hoc : checkOneCorner g a.coord b.coord with
    | some c => simp [hsl, hoc]
    | none =>
      cases htc : checkTwoCorners g a.coord b.coord with
      | some cc => cases cc with | mk c1 c2 => simp [hsl, hoc, htc]
      | none => simp [hsl, hoc, htc]

/-- Claim C1 as stated is false: `getConnectionPath` skips the pattern
check, so a pattern-mismatched adjacent pair has `canConnect = false` but a
non-null path.  This grid: one row, cells with pattern ids 1 and 2. -/
def mismatchGrid : Grid :=
  { gridRows := 1
    gridCols := 2
    cellAt := fun r c =>
      if r = 0 ∧ c = 0 then ⟨0, 0, some ⟨1⟩, true, false⟩
      else if r = 0 ∧ c = 1 then ⟨0, 1, some ⟨2⟩, true, false⟩
      else ⟨r, c, none, false, true⟩ }

def mismatchCellA : Cell := ⟨0, 0, some ⟨1⟩, true, false⟩

def mismatchCellB : Cell := ⟨0, 1, some ⟨2⟩, true, false⟩

/-- Claim C1, counterexample: on `mismatchGrid` the two cells of differing
pattern ids are not connectable per `canConnect`, yet `getConnectionPath`
returns a (non-null) path, refuting the claimed equivalence for arbitrary
cell pairs. -/
theorem claim1_counterexample :
    canConnect mismatchGrid mismatchCellA mismatchCellB = false ∧
    (getConnectionPath mismatchGrid mismatchCellA mismatchCellB).isSome = true := by
  constructor
  · decide
  · decide

/-- Claim C1, amended: for pairs that pass `canConnect`'s preliminary checks
(both endpoints in bounds, distinct cells, equal non-null pattern ids),
`canConnect` is true exactly when `getConnectionPath` is non-null; and any
returned path (for any pair) has 2 to 4 points, starts at the first cell's
(col, row) and ends at the second cell's (col, row). -/
theorem claim1_path_connect_consistency (g : Grid) (a b : Cell) :
    (∀ p q : Pattern, isValidCell g a = true → isValidCell g b = true →
      a ≠ b → a.pattern = some p → b.pattern = some q → p.id = q.id →
      (canConnect g a b = true ↔ (getConnectionPath g a b).isSome = true)) ∧
    (∀ path, getConnectionPath g a b = some path →
      2 ≤ path.length ∧ path.length ≤ 4 ∧
      path.head? = some ⟨a.col, a.row⟩ ∧
      path.getLast? = some ⟨b.col, b.row⟩) := by
  constructor
  · intro p q hva hvb hne hpa hpb hid
    have hcc : canConnect g a b =
        (checkStraightLine g a.coord b.coord ||
         (checkOneCorner g a.coord b.coord).isSome ||
         (checkTwoCorners g a.coord b.coord).isSome) := by
      simp [canConnect, hva, hvb, hne, hpa, hpb, hid]
    rw [hcc, getConnectionPath_isSome]
  · intro path hpath
    unfold getConnectionPath at hpath
    by_cases hsl : checkStraightLine g a.coord b.coord = true
    · rw [if_pos hsl] at hpath
      cases hpath
      refine ⟨by simp, by simp, rfl, rfl⟩
    · rw [if_neg hsl] at hpath
      cases hoc : checkOneCorner g a.coord b.coord with
      | some c =>
        rw [hoc] at hpath
        cases hpath
        refine ⟨by simp, by simp, rfl, rfl⟩
      | none =>
        rw [hoc] at hpath
        cases htc : checkTwoCorners g a.coord b.coord with
        | some cc =>
          cases cc with
          | mk c1 c2 =>
            rw [htc] at hpath
            cases hpath
            refine ⟨by simp, by simp, rfl, rfl⟩
        | none => rw [htc] at hpath; cases hpath

/-- Witness for C1's amended theorem: a concrete matching pair on
`matchedPairGrid` below would also do, but the mismatch grid's geometry with
equal ids suffices: build a 1-row grid with equal ids. -/
def samePairGrid : Grid :=
  { gridRows := 1
    gridCols := 2
    cellAt := fun r c =>
      if r = 0 ∧ c = 0 then ⟨0, 0, some ⟨1⟩, true, false⟩
      else if r = 0 ∧ c = 1 then ⟨0, 1, some ⟨1⟩, true, false⟩
      else ⟨r, c, none, false, true⟩ }

def samePairCellA : Cell := ⟨0, 0, some ⟨1⟩, true, false⟩

def samePairCellB : Cell := ⟨0, 1, some ⟨1⟩, true, false⟩

theorem claim1_witness :
    (getConnectionPath samePairGrid samePairCellA samePairCellB).isSome = true :=
  ((claim1_path_connect_consistency samePairGrid samePairCellA
    samePairCellB).1 ⟨1⟩ ⟨1⟩ (by decide) (by decide) (by decide) rfl rfl
    rfl).mp (by decide)

/-! ### Claim C2: matched-endpoint asymmetry between the two variants -/

/-- One row, both cells pattern id 1, the left cell already matched. -/
def matchedPairGrid : Grid :=
  { gridRows := 1
    gridCols := 2
    cellAt := fun r c =>
      if r = 0 ∧ c = 0 then ⟨0, 0, some ⟨1⟩, true, true⟩
      else if r = 0 ∧ c = 1 then ⟨0, 1, some ⟨1⟩, true, false⟩
      else ⟨r, c, none, false, true⟩ }

def matchedPairCellA : Cell := ⟨0, 0, some ⟨1⟩, true, true⟩

def matchedPairCellB : Cell := ⟨0, 1, some ⟨1⟩, true, false⟩

/-- Claim C2: the simulation variant `canConnectInGrid` rejects every pair
with a matched endpoint, while the live `canConnect` performs no such check:
on `matchedPairGrid` the matched cell still connects. -/
theorem claim2_matched_endpoint_asymmetry :
    (∀ (g : Grid) (c1 c2 : Cell) (p q : Pattern),
      isValidCell g c1 = true → isValidCell g c2 = true → c1 ≠ c2 →
      c1.pattern = some p → c2.pattern = some q → p.id = q.id →
      (c1.matched = true ∨ c2.matched = true) →
      canConnectInGrid g c1 c2 = false) ∧
    matchedPairCellA.matched = true ∧
    canConnect matchedPairGrid matchedPairCellA matchedPairCellB = true := by
  refine ⟨?hall, rfl, by decide⟩
  intro g c1 c2 p q hv1 hv2 hne hp1 hp2 hid hm
  have hmb : (c1.matched || c2.matched) = true := by
    rcases hm with h | h <;> simp [h]
  simp [canConnectInGrid, hv1, hv2, hne, hp1, hp2, hid, hmb]

/-- Witness instantiating C2's universally quantified conjunct at the
concrete matched pair. -/
theorem claim2_witness :
    canConnectInGrid matchedPairGrid matchedPairCellA matchedPairCellB = false :=
  claim2_matched_endpoint_asymmetry.1 matchedPairGrid matchedPairCellA
    matchedPairCellB ⟨1⟩ ⟨1⟩ (by decide) (by decide) (by decide) rfl rfl rfl
    (Or.inl rfl)

/-! ### Claim C3: symmetry of `canConnect` -/

theorem checkHorizontalLine_symm (g : Grid) (a b : Coord) (h : a.row = b.row) :
    checkHorizontalLine g a b = checkHorizontalLine g b a := by
  unfold checkHorizontalLine
  rw [h, min_comm, max_comm]

theorem checkVerticalLine_symm (g : Grid) (a b : Coord) (h : a.col = b.col) :
    checkVerticalLine g a b = checkVerticalLine g b a := by
  unfold checkVerticalLine
  rw [h, min_comm, max_comm]

theorem checkStraightLine_symm (g : Grid) (a b : Coord) :
    checkStraightLine g a b = checkStraightLine g b a := by
  unfold checkStraightLine
  by_cases hr : a.row = b.row
  · simp only [if_pos hr, if_pos hr.symm]
    exact checkHorizontalLine_symm g a b hr
  · have hr2 : ¬ b.row = a.row := fun h => hr h.symm
    by_cases hc : a.col = b.col
    · simp only [if_neg hr, if_neg hr2, if_pos hc, if_pos hc.symm]
      exact checkVerticalLine_symm g a b hc
    · have hc2 : ¬ b.col = a.col := fun h => hc h.symm
      simp only [if_neg hr, if_neg hr2, if_neg hc, if_neg hc2]

/-- The Boolean content of `checkOneCorner`: it succeeds exactly when one of
the two corner candidates passes its three subchecks. -/
theorem checkOneCorner_isSome (g : Grid) (a b : Coord) :
    (checkOneCorner g a b).isSome =
      ((isValidCorner g ⟨a.row, b.col⟩ && checkStraightLine g a ⟨a.row, b.col⟩ &&
        checkStraightLine g ⟨a.row, b.col⟩ b) ||
       (isValidCorner g ⟨b.row, a.col⟩ && checkStraightLine g a ⟨b.row, a.col⟩ &&
        checkStraightLine g ⟨b.row, a.col⟩ b)) := by
  unfold checkOneCorner
  by_cases h1 : (isValidCorner g ⟨a.row, b.col⟩ && checkStraightLine g a ⟨a.row, b.col⟩ &&
      checkStraightLine g ⟨a.row, b.col⟩ b) = true
  · simp [h1]
  · by_cases h2 : (isValidCorner g ⟨b.row, a.col⟩ && checkStraightLine g a ⟨b.row, a.col⟩ &&
        checkStraightLine g ⟨b.row, a.col⟩ b) = true
    · simp [h1, h2]
    · simp [h1, h2]

theorem checkOneCorner_isSome_symm (g : Grid) (a b : Coord) :
    (checkOneCorner g a b).isSome = (checkOneCorner g b a).isSome := by
  rw [checkOneCorner_isSome, checkOneCorner_isSome,
    checkStraightLine_symm g a ⟨a.row, b.col⟩,
    checkStraightLine_symm g ⟨a.row, b.col⟩ b,
    checkStraightLine_symm g a ⟨b.row, a.col⟩,
    checkStraightLine_symm g ⟨b.row, a.col⟩ b]
  refine Bool.eq_iff_iff.mpr ?hiff
  simp only [Bool.or_eq_true, Bool.and_eq_true]
  tauto

theorem twoCornersRowOk_symm (g : Grid) (a b : Coord) (r : Int) :
    twoCornersRowOk g a b r = twoCornersRowOk g b a r := by
  unfold twoCornersRowOk
  dsimp only
  rw [checkStraightLine_symm g a ⟨r, a.col⟩,
    checkStraightLine_symm g ⟨r, b.col⟩ b,
    checkHorizontalLine_symm g ⟨r, a.col⟩ ⟨r, b.col⟩ rfl]
  refine Bool.eq_iff_iff.mpr ?hiff
  simp only [Bool.and_eq_true]
  tauto

theorem twoCornersColOk_symm (g : Grid) (a b : Coord) (c : Int) :
    twoCornersColOk g a b c = twoCornersColOk g b a c := by
  unfold twoCornersColOk
  dsimp only
  rw [checkStraightLine_symm g a ⟨a.row, c⟩,
    checkStraightLine_symm g ⟨b.row, c⟩ b,
    checkVerticalLine_symm g ⟨a.row, c⟩ ⟨b.row, c⟩ rfl]
  refine Bool.eq_iff_iff.mpr ?hiff
  simp only [Bool.and_eq_true]
  tauto

theorem checkTwoCorners_isSome_symm (g : Grid) (a b : Coord) :
    (checkTwoCorners g a b).isSome = (checkTwoCorners g b a).isSome := by
  unfold checkTwoCorners
  have hrl : (intRange 0 (g.gridRows : Int)).filter
        (fun row => !(row == b.row || row == a.row)) =
      (intRange 0 (g.gridRows : Int)).filter
        (fun row => !(row == a.row || row == b.row)) :=
    List.filter_congr (fun x _ => by rw [Bool.or_comm])
  have hcl : (intRange 0 (g.gridCols : Int)).filter
        (fun col => !(col == b.col || col == a.col)) =
      (intRange 0 (g.gridCols : Int)).filter
        (fun col => !(col == a.col || col == b.col)) :=
    List.filter_congr (fun x _ => by rw [Bool.or_comm])
  have hrf : ((intRange 0 (g.gridRows : Int)).filter
        (fun row => !(row == b.row || row == a.row))).find?
        (twoCornersRowOk g b a) =
      ((intRange 0 (g.gridRows : Int)).filter
        (fun row => !(row == a.row || row == b.row))).find?
        (twoCornersRowOk g a b) := by
    rw [hrl]
    exact find?_congr (fun x _ => twoCornersRowOk_symm g b a x)
  have hcf : ((intRange 0 (g.gridCols : Int)).filter
        (fun col => !(col == b.col || col == a.col))).find?
        (twoCornersColOk g b a) =
      ((intRange 0 (g.gridCols : Int)).filter
        (fun col => !(col == a.col || col == b.col))).find?
        (twoCornersColOk g a b) := by
    rw [hcl]
    exact find?_congr (fun x _ => twoCornersColOk_symm g b a x)
  rw [hrf, hcf]
  cases ((intRange 0 (g.gridRows : Int)).filter
      (fun row => !(row == a.row || row == b.row))).find?
      (twoCornersRowOk g a b) with
  | some r => rfl
  | none =>
    cases ((intRange 0 (g.gridCols : Int)).filter
        (fun col => !(col == a.col || col == b.col))).find?
        (twoCornersColOk g a b) with
    | some c => rfl
    | none => rfl

/-- `canConnect` is in fact symmetric for arbitrary cell pairs. -/
theorem canConnect_symm_all (g : Grid) (a b : Cell) :
    canConnect g a b = canConnect g b a := by
  cases hv1 : isValidCell g a with
  | false => simp [canConnect, hv1]
  | true =>
    cases hv2 : isValidCell g b with
    | false => simp [canConnect, hv1, hv2]
    | true =>
      by_cases hab : a = b
      · subst hab; rfl
      · have hba : ¬ b = a := fun h => hab h.symm
        cases hpa : a.pattern with
        | none =>
          cases hpb : b.pattern <;>
            simp [canConnect, hv1, hv2, hab, hba, hpa, hpb]
        | some p1 =>
          cases hpb : b.pattern with
          | none => simp [canConnect, hv1, hv2, hab, hba, hpa, hpb]
          | some p2 =>
            by_cases hid : p1.id = p2.id
            · have hid2 : p2.id = p1.id := hid.symm
              simp only [canConnect, hv1, hv2, Bool.not_true, Bool.or_self,
                Bool.false_eq_true, if_false, if_neg hab, if_neg hba, hpa, hpb,
                if_pos hid, if_pos hid2]
              rw [checkStraightLine_symm, checkOneCorner_isSome_symm,
                checkTwoCorners_isSome_symm]
            · have hid2 : ¬ p2.id = p1.id := fun h => hid h.symm
              simp [canConnect, hv1, hv2, hab, hba, hpa, hpb, hid, hid2]

/-- Claim C3: `canConnect` is symmetric on pairs of visible, unmatched cells
holding equal non-null pattern ids. -/
theorem claim3_canConnect_symmetric (g : Grid) (a b : Cell)
    (_hva : a.visible = true) (_hvb : b.visible = true)
    (_hma : a.matched = false) (_hmb : b.matched = false)
    (p q : Pattern) (_hpa : a.pattern = some p) (_hpb : b.pattern = some q)
    (_hid : p.id = q.id) :
    canConnect g a b = canConnect g b a :=
  canConnect_symm_all g a b

/-- Witness for C3 at a concrete visible unmatched equal-id pair. -/
theorem claim3_witness :
    canConnect samePairGrid samePairCellA samePairCellB =
      canConnect samePairGrid samePairCellB samePairCellA :=
  claim3_canConnect_symmetric samePairGrid samePairCellA samePairCellB
    rfl rfl rfl rfl ⟨1⟩ ⟨1⟩ rfl rfl rfl

/-! ### Claim C4: straight-line correctness -/

theorem checkHorizontalLine_iff (g : Grid) (a b : Coord) :
    checkHorizontalLine g a b = true ↔
      ∀ c : Int, min a.col b.col < c → c < max a.col b.col →
        isCellEmpty g a.row c = true := by
  unfold checkHorizontalLine
  dsimp only
  rw [List.all_eq_true]
  constructor
  · intro h c h1 h2
    exact h c (mem_intRange.mpr ⟨by omega, h2⟩)
  · intro h x hx
    have hx2 := mem_intRange.mp hx
    exact h x (by omega) hx2.2

theorem checkVerticalLine_iff (g : Grid) (a b : Coord) :
    checkVerticalLine g a b = true ↔
      ∀ r : Int, min a.row b.row < r → r < max a.row b.row →
        isCellEmpty g r a.col = true := by
  unfold checkVerticalLine
  dsimp only
  rw [List.all_eq_true]
  constructor
  · intro h r h1 h2
    exact h r (mem_intRange.mpr ⟨by omega, h2⟩)
  · intro h x hx
    have hx2 := mem_intRange.mp hx
    exact h x (by omega) hx2.2

/-- A visible, unmatched cell is never an empty position. -/
theorem isCellEmpty_of_blocker (g : Grid) (r c : Int)
    (hv : (g.cellAt r c).visible = true) (hm : (g.cellAt r c).matched = false) :
    isCellEmpty g r c = false := by
  unfold isCellEmpty
  split
  · rfl
  · dsimp only
    rw [hv, hm]
    rfl

theorem straightLine_row_iff (g : Grid) (a b : Cell) (hr : a.row = b.row) :
    checkStraightLine g a.coord b.coord = true ↔
      ∀ c : Int, min a.col b.col < c → c < max a.col b.col →
        isCellEmpty g a.row c = true := by
  have hsl : checkStraightLine g a.coord b.coord = checkHorizontalLine g a.coord b.coord := by
    unfold checkStraightLine
    rw [if_pos (show a.coord.row = b.coord.row from hr)]
  rw [hsl]
  exact checkHorizontalLine_iff g a.coord b.coord

theorem straightLine_col_iff (g : Grid) (a b : Cell) (hc : a.col = b.col) :
    checkStraightLine g a.coord b.coord = true ↔
      ∀ r : Int, min a.row b.row < r → r < max a.row b.row →
        isCellEmpty g r a.col = true := by
  by_cases hr : a.row = b.row
  · rw [straightLine_row_iff g a b hr]
    constructor
    · intro _ r h1 h2
      omega
    · intro _ c h1 h2
      have hcc : a.col = b.col := hc
      omega
  · have hv : checkStraightLine g a.coord b.coord = checkVerticalLine g a.coord b.coord := by
      unfold checkStraightLine
      rw [if_neg (show ¬ a.coord.row = b.coord.row from hr),
        if_pos (show a.coord.col = b.coord.col from hc)]
    rw [hv]
    exact checkVerticalLine_iff g a.coord b.coord

/-- Claim C4: straight-line connectivity.  For two distinct cells sharing a
row, the check succeeds iff every strictly-between cell of that row is
empty; symmetrically for a shared column; cells sharing neither row nor
column never connect by a straight line; and a visible, unmatched blocker
strictly between the two endpoints forces the check to false. -/
theorem claim4_straight_line_correctness (g : Grid) (a b : Cell) :
    (a.row = b.row →
      (checkStraightLine g a.coord b.coord = true ↔
        ∀ c : Int, min a.col b.col < c → c < max a.col b.col →
          isCellEmpty g a.row c = true)) ∧
    (a.col = b.col →
      (checkStraightLine g a.coord b.coord = true ↔
        ∀ r : Int, min a.row b.row < r → r < max a.row b.row →
          isCellEmpty g r a.col = true)) ∧
    (a.row ≠ b.row → a.col ≠ b.col →
      checkStraightLine g a.coord b.coord = false) ∧
    (∀ c : Int, a.row = b.row → min a.col b.col < c → c < max a.col b.col →
      (g.cellAt a.row c).visible = true → (g.cellAt a.row c).matched = false →
      checkStraightLine g a.coord b.coord = false) ∧
    (∀ r : Int, a.col = b.col → min a.row b.row < r → r < max a.row b.row →
      (g.cellAt r a.col).visible = true → (g.cellAt r a.col).matched = false →
      checkStraightLine g a.coord b.coord = false) := by
  refine ⟨straightLine_row_iff g a b, straightLine_col_iff g a b, ?hneither,
    ?hblockrow, ?hblockcol⟩
  · intro hr hc
    unfold checkStraightLine
    rw [if_neg (show ¬ a.coord.row = b.coord.row from hr),
      if_neg (show ¬ a.coord.col = b.coord.col from hc)]
  · intro c hr h1 h2 hv hm
    cases hres : checkStraightLine g a.coord b.coord with
    | false => rfl
    | true =>
      have hall := ((straightLine_row_iff g a b hr).mp hres) c h1 h2
      rw [isCellEmpty_of_blocker g a.row c hv hm] at hall
      cases hall
  · intro r hc h1 h2 hv hm
    cases hres : checkStraightLine g a.coord b.coord with
    | false => rfl
    | true =>
      have hall := ((straightLine_col_iff g a b hc).mp hres) r h1 h2
      rw [isCellEmpty_of_blocker g r a.col hv hm] at hall
      cases hall

/-- A 2-by-2 board with an equal-id pair on the diagonal. -/
def diagGrid : Grid :=
  { gridRows := 2
    gridCols := 2
    cellAt := fun r c =>
      if r = 0 ∧ c = 0 then ⟨0, 0, some ⟨1⟩, true, false⟩
      else if r = 1 ∧ c = 1 then ⟨1, 1, some ⟨1⟩, true, false⟩
      else ⟨r, c, none, false, true⟩ }

def diagCellA : Cell := ⟨0, 0, some ⟨1⟩, true, false⟩

def diagCellB : Cell := ⟨1, 1, some ⟨1⟩, true, false⟩

/-- Witness for C4 at a concrete diagonal pair (neither row nor column
shared, hence no straight line). -/
theorem claim4_witness :
    checkStraightLine diagGrid diagCellA.coord diagCellB.coord = false :=
  (claim4_straight_line_correctness diagGrid diagCellA diagCellB).2.2.1
    (by decide) (by decide)

/-! ### Claim C5: deterministic tie-break ordering -/

theorem find?_min_of_sorted {p : α → Bool} {l : List α} {x : α}
    [LinearOrder α] (hs : l.Pairwise (· < ·)) (hf : l.find? p = some x) :
    ∀ y ∈ l, y < x → p y = false := by
  induction l with
  | nil => cases hf
  | cons a l ih =>
    by_cases hpa : p a = true
    · rw [List.find?_cons_of_pos _ hpa] at hf
      cases hf
      intro y hy hlt
      rcases List.mem_cons.mp hy with rfl | hy
      · exact absurd hlt (lt_irrefl _)
      · exact absurd ((List.pairwise_cons.mp hs).1 y hy) (not_lt_of_lt hlt)
    · rw [List.find?_cons_of_neg _ hpa] at hf
      intro y hy hlt
      rcases List.mem_cons.mp hy with rfl | hy
      · exact Bool.eq_false_iff.mpr hpa
      · exact ih (List.pairwise_cons.mp hs).2 hf y hy hlt

/-- A row index that the two-corner horizontal scan accepts: in range,
distinct from both endpoints' rows, and passing the three segment checks. -/
def rowScanHit (g : Grid) (a b : Coord) (r : Int) : Prop :=
  0 ≤ r ∧ r < (g.gridRows : Int) ∧ r ≠ a.row ∧ r ≠ b.row ∧
    twoCornersRowOk g a b r = true

/-- A column index that the two-corner vertical scan accepts. -/
def colScanHit (g : Grid) (a b : Coord) (c : Int) : Prop :=
  0 ≤ c ∧ c < (g.gridCols : Int) ∧ c ≠ a.col ∧ c ≠ b.col ∧
    twoCornersColOk g a b c = true

theorem mem_rowScanList {g : Grid} {a b : Coord} {r : Int} :
    r ∈ (intRange 0 (g.gridRows : Int)).filter
        (fun row => !(row == a.row || row == b.row)) ↔
      0 ≤ r ∧ r < (g.gridRows : Int) ∧ r ≠ a.row ∧ r ≠ b.row := by
  rw [List.mem_filter, mem_intRange]
  simp only [Bool.not_eq_eq_eq_not, Bool.not_true, Bool.or_eq_false_iff,
    beq_eq_false_iff_ne, ne_eq]
  tauto

theorem mem_colScanList {g : Grid} {a b : Coord} {c : Int} :
    c ∈ (intRange 0 (g.gridCols : Int)).filter
        (fun col => !(col == a.col || col == b.col)) ↔
      0 ≤ c ∧ c < (g.gridCols : Int) ∧ c ≠ a.col ∧ c ≠ b.col := by
  rw [List.mem_filter, mem_intRange]
  simp only [Bool.not_eq_eq_eq_not, Bool.not_true, Bool.or_eq_false_iff,
    beq_eq_false_iff_ne, ne_eq]
  tauto

theorem rowScanList_pairwise (g : Grid) (a b : Coord) :
    ((intRange 0 (g.gridRows : Int)).filter
      (fun row => !(row == a.row || row == b.row))).Pairwise (· < ·) :=
  (intRange_pairwise_lt 0 (g.gridRows : Int)).sublist (List.filter_sublist _)

theorem colScanList_pairwise (g : Grid) (a b : Coord) :
    ((intRange 0 (g.gridCols : Int)).filter
      (fun col => !(col == a.col || col == b.col))).Pairwise (· < ·) :=
  (intRange_pairwise_lt 0 (g.gridCols : Int)).sublist (List.filter_sublist _)

/-- Claim C5: the search order is deterministic exactly as specified.  In
the one-corner check, candidate `(cellA.row, cellB.col)` is decided first
and the winning candidate is the middle point of the 3-point path; in the
two-corner check the ascending row scan runs before the ascending column
scan and the first (least) hit provides the two corners of the 4-point
path. -/
theorem claim5_tie_break_order (g : Grid) (a b : Cell) :
    ((isValidCorner g ⟨a.row, b.col⟩ &&
        checkStraightLine g a.coord ⟨a.row, b.col⟩ &&
        checkStraightLine g ⟨a.row, b.col⟩ b.coord) = true →
      checkOneCorner g a.coord b.coord = some ⟨a.row, b.col⟩) ∧
    ((isValidCorner g ⟨a.row, b.col⟩ &&
        checkStraightLine g a.coord ⟨a.row, b.col⟩ &&
        checkStraightLine g ⟨a.row, b.col⟩ b.coord) = false →
      (isValidCorner g ⟨b.row, a.col⟩ &&
        checkStraightLine g a.coord ⟨b.row, a.col⟩ &&
        checkStraightLine g ⟨b.row, a.col⟩ b.coord) = true →
      checkOneCorner g a.coord b.coord = some ⟨b.row, a.col⟩) ∧
    (∀ corner, checkStraightLine g a.coord b.coord = false →
      checkOneCorner g a.coord b.coord = some corner →
      getConnectionPath g a b =
        some [⟨a.col, a.row⟩, ⟨corner.col, corner.row⟩, ⟨b.col, b.row⟩]) ∧
    ((∃ r, rowScanHit g a.coord b.coord r) →
      ∃ r0, rowScanHit g a.coord b.coord r0 ∧
        (∀ r, rowScanHit g a.coord b.coord r → r0 ≤ r) ∧
        checkTwoCorners g a.coord b.coord =
          some (⟨r0, a.col⟩, ⟨r0, b.col⟩)) ∧
    ((∀ r, ¬ rowScanHit g a.coord b.coord r) →
      (∃ c, colScanHit g a.coord b.coord c) →
      ∃ c0, colScanHit g a.coord b.coord c0 ∧
        (∀ c, colScanHit g a.coord b.coord c → c0 ≤ c) ∧
        checkTwoCorners g a.coord b.coord =
          some (⟨a.row, c0⟩, ⟨b.row, c0⟩)) ∧
    (∀ corner1 corner2, checkStraightLine g a.coord b.coord = false →
      checkOneCorner g a.coord b.coord = none →
      checkTwoCorners g a.coord b.coord = some (corner1, corner2) →
      getConnectionPath g a b =
        some [⟨a.col, a.row⟩, ⟨corner1.col, corner1.row⟩,
              ⟨corner2.col, corner2.row⟩, ⟨b.col, b.row⟩]) := by
  refine ⟨?h1, ?h2, ?h3, ?h4, ?h5, ?h6⟩
  · intro h1
    unfold checkOneCorner
    dsimp only
    simp only [Cell.coord] at h1 ⊢
    rw [if_pos h1]
  · intro h1 h2
    unfold checkOneCorner
    dsimp only
    simp only [Cell.coord] at h1 h2 ⊢
    rw [if_neg (by simp [h1]), if_pos h2]
  · intro corner hsl hoc
    unfold getConnectionPath
    rw [if_neg (by simp [hsl]), hoc]
  · intro hex
    set L := (intRange 0 (g.gridRows : Int)).filter
      (fun row => !(row == a.coord.row || row == b.coord.row)) with hL
    have hsome : (L.find? (twoCornersRowOk g a.coord b.coord)).isSome := by
      obtain ⟨r, hr⟩ := hex
      refine List.find?_isSome.mpr ⟨r, ?hmemr, hr.2.2.2.2⟩
      exact mem_rowScanList.mpr ⟨hr.1, hr.2.1, hr.2.2.1, hr.2.2.2.1⟩
    obtain ⟨r0, hr0⟩ := Option.isSome_iff_exists.mp hsome
    have hr0mem := List.mem_of_find?_eq_some hr0
    have hr0props := mem_rowScanList.mp hr0mem
    have hr0pred := List.find?_some hr0
    refine ⟨r0, ⟨hr0props.1, hr0props.2.1, hr0props.2.2.1, hr0props.2.2.2,
      hr0pred⟩, ?hminr, ?hresr⟩
    · intro r hr
      by_contra hlt
      have hrlt : r < r0 := by omega
      have hrmem : r ∈ L := mem_rowScanList.mpr ⟨hr.1, hr.2.1, hr.2.2.1, hr.2.2.2.1⟩
      have := find?_min_of_sorted (rowScanList_pairwise g a.coord b.coord) hr0 r hrmem hrlt
      rw [hr.2.2.2.2] at this
      cases this
    · unfold checkTwoCorners
      rw [← hL, hr0]
      rfl
  · intro hnone hex
    have hrownone : ((intRange 0 (g.gridRows : Int)).filter
        (fun row => !(row == a.coord.row || row == b.coord.row))).find?
        (twoCornersRowOk g a.coord b.coord) = none := by
      rw [List.find?_eq_none]
      intro r hrmem hpred
      have hprops := mem_rowScanList.mp hrmem
      exact hnone r ⟨hprops.1, hprops.2.1, hprops.2.2.1, hprops.2.2.2, hpred⟩
    set L := (intRange 0 (g.gridCols : Int)).filter
      (fun col => !(col == a.coord.col || col == b.coord.col)) with hL
    have hsome : (L.find? (twoCornersColOk g a.coord b.coord)).isSome := by
      obtain ⟨c, hc⟩ := hex
      refine List.find?_isSome.mpr ⟨c, ?hmemc, hc.2.2.2.2⟩
      exact mem_colScanList.mpr ⟨hc.1, hc.2.1, hc.2.2.1, hc.2.2.2.1⟩
    obtain ⟨c0, hc0⟩ := Option.isSome_iff_exists.mp hsome
    have hc0mem := List.mem_of_find?_eq_some hc0
    have hc0props := mem_colScanList.mp hc0mem
    have hc0pred := List.find?_some hc0
    refine ⟨c0, ⟨hc0props.1, hc0props.2.1, hc0props.2.2.1, hc0props.2.2.2,
      hc0pred⟩, ?hminc, ?hresc⟩
    · intro c hc
      by_contra hlt
      have hclt : c < c0 := by omega
      have hcmem : c ∈ L := mem_colScanList.mpr ⟨hc.1, hc.2.1, hc.2.2.1, hc.2.2.2.1⟩
      have := find?_min_of_sorted (colScanList_pairwise g a.coord b.coord) hc0 c hcmem hclt
      rw [hc.2.2.2.2] at this
      cases this
    · unfold checkTwoCorners
      rw [hrownone, ← hL, hc0]
      rfl
  · intro corner1 corner2 hsl hoc htc
    unfold getConnectionPath
    rw [if_neg (by simp [hsl]), hoc, htc]

/-- Witness for C5: on the diagonal 2-by-2 board the first one-corner
candidate `(cellA.row, cellB.col) = (0, 1)` passes and is returned. -/
theorem claim5_witness :
    checkOneCorner diagGrid diagCellA.coord diagCellB.coord = some ⟨0, 1⟩ :=
  (claim5_tie_break_order diagGrid diagCellA diagCellB).1 (by decide)

/-! ### Claim C9: monotonicity of `canConnect` in cell emptiness -/

theorem checkHorizontalLine_mono {G Gm : Grid}
    (hm : ∀ r c, isCellEmpty G r c = true → isCellEmpty Gm r c = true)
    (a b : Coord) :
    checkHorizontalLine G a b = true → checkHorizontalLine Gm a b = true := by
  unfold checkHorizontalLine
  dsimp only
  rw [List.all_eq_true, List.all_eq_true]
  intro h x hx
  exact hm _ _ (h x hx)

theorem checkVerticalLine_mono {G Gm : Grid}
    (hm : ∀ r c, isCellEmpty G r c = true → isCellEmpty Gm r c = true)
    (a b : Coord) :
    checkVerticalLine G a b = true → checkVerticalLine Gm a b = true := by
  unfold checkVerticalLine
  dsimp only
  rw [List.all_eq_true, List.all_eq_true]
  intro h x hx
  exact hm _ _ (h x hx)

theorem checkStraightLine_mono {G Gm : Grid}
    (hm : ∀ r c, isCellEmpty G r c = true → isCellEmpty Gm r c = true)
    (a b : Coord) :
    checkStraightLine G a b = true → checkStraightLine Gm a b = true := by
  unfold checkStraightLine
  by_cases hr : a.row = b.row
  · rw [if_pos hr, if_pos hr]
    exact checkHorizontalLine_mono hm a b
  · rw [if_neg hr, if_neg hr]
    by_cases hc : a.col = b.col
    · rw [if_pos hc, if_pos hc]
      exact checkVerticalLine_mono hm a b
    · rw [if_neg hc, if_neg hc]
      exact id

theorem isValidCorner_mono {G Gm : Grid}
    (hm : ∀ r c, isCellEmpty G r c = true → isCellEmpty Gm r c = true)
    (p : Coord) :
    isValidCorner G p = true → isValidCorner Gm p = true := by
  unfold isValidCorner
  exact hm _ _

theorem checkOneCorner_isSome_mono {G Gm : Grid}
    (hm : ∀ r c, isCellEmpty G r c = true → isCellEmpty Gm r c = true)
    (a b : Coord) :
    (checkOneCorner G a b).isSome = true → (checkOneCorner Gm a b).isSome = true := by
  rw [checkOneCorner_isSome, checkOneCorner_isSome]
  simp only [Bool.or_eq_true, Bool.and_eq_true]
  rintro (⟨⟨h1, h2⟩, h3⟩ | ⟨⟨h1, h2⟩, h3⟩)
  · exact Or.inl ⟨⟨isValidCorner_mono hm _ h1, checkStraightLine_mono hm _ _ h2⟩,
      checkStraightLine_mono hm _ _ h3⟩
  · exact Or.inr ⟨⟨isValidCorner_mono hm _ h1, checkStraightLine_mono hm _ _ h2⟩,
      checkStraightLine_mono hm _ _ h3⟩

theorem twoCornersRowOk_mono {G Gm : Grid}
    (hm : ∀ r c, isCellEmpty G r c = true → isCellEmpty Gm r c = true)
    (a b : Coord) (r : Int) :
    twoCornersRowOk G a b r = true → twoCornersRowOk Gm a b r = true := by
  unfold twoCornersRowOk
  dsimp only
  simp only [Bool.and_eq_true]
  rintro ⟨⟨h1, h2⟩, ⟨h3, h4⟩, h5⟩
  exact ⟨⟨isValidCorner_mono hm _ h1, isValidCorner_mono hm _ h2⟩,
    ⟨checkStraightLine_mono hm _ _ h3, checkHorizontalLine_mono hm _ _ h4⟩,
    checkStraightLine_mono hm _ _ h5⟩

theorem twoCornersColOk_mono {G Gm : Grid}
    (hm : ∀ r c, isCellEmpty G r c = true → isCellEmpty Gm r c = true)
    (a b : Coord) (c : Int) :
    twoCornersColOk G a b c = true → twoCornersColOk Gm a b c = true := by
  unfold twoCornersColOk
  dsimp only
  simp only [Bool.and_eq_true]
  rintro ⟨⟨h1, h2⟩, ⟨h3, h4⟩, h5⟩
  exact ⟨⟨isValidCorner_mono hm _ h1, isValidCorner_mono hm _ h2⟩,
    ⟨checkStraightLine_mono hm _ _ h3, checkVerticalLine_mono hm _ _ h4⟩,
    checkStraightLine_mono hm _ _ h5⟩

/-- `checkTwoCorners` succeeds exactly when one of the two scans finds a
hit. -/
theorem checkTwoCorners_isSome_eq (g : Grid) (a b : Coord) :
    (checkTwoCorners g a b).isSome =
      ((((intRange 0 (g.gridRows : Int)).filter
          (fun row => !(row == a.row || row == b.row))).find?
          (twoCornersRowOk g a b)).isSome ||
       (((intRange 0 (g.gridCols : Int)).filter
          (fun col => !(col == a.col || col == b.col))).find?
          (twoCornersColOk g a b)).isSome) := by
  unfold checkTwoCorners
  cases ((intRange 0 (g.gridRows : Int)).filter
      (fun row => !(row == a.row || row == b.row))).find?
      (twoCornersRowOk g a b) with
  | some r => rfl
  | none =>
    cases ((intRange 0 (g.gridCols : Int)).filter
        (fun col => !(col == a.col || col == b.col))).find?
        (twoCornersColOk g a b) with
    | some c => rfl
    | none => rfl

theorem checkTwoCorners_isSome_mono {G Gm : Grid}
    (hrows : G.gridRows = Gm.gridRows) (hcols : G.gridCols = Gm.gridCols)
    (hm : ∀ r c, isCellEmpty G r c = true → isCellEmpty Gm r c = true)
    (a b : Coord) :
    (checkTwoCorners G a b).isSome = true → (checkTwoCorners Gm a b).isSome = true := by
  rw [checkTwoCorners_isSome_eq, checkTwoCorners_isSome_eq]
  simp only [Bool.or_eq_true, List.find?_isSome]
  rintro (⟨r, hrmem, hr⟩ | ⟨c, hcmem, hc⟩)
  · refine Or.inl ⟨r, ?hmemm, twoCornersRowOk_mono hm a b r hr⟩
    rw [← hrows]
    exact hrmem
  · refine Or.inr ⟨c, ?hmemm2, twoCornersColOk_mono hm a b c hc⟩
    rw [← hcols]
    exact hcmem

theorem isValidCell_congr {G Gm : Grid}
    (hrows : G.gridRows = Gm.gridRows) (hcols : G.gridCols = Gm.gridCols)
    (c : Cell) : isValidCell G c = isValidCell Gm c := by
  unfold isValidCell
  rw [hrows, hcols]

/-- Inversion principle for `canConnect`. -/
theorem canConnect_eq_true_iff (g : Grid) (a b : Cell) :
    canConnect g a b = true ↔
      isValidCell g a = true ∧ isValidCell g b = true ∧ a ≠ b ∧
      ∃ p q, a.pattern = some p ∧ b.pattern = some q ∧ p.id = q.id ∧
        (checkStraightLine g a.coord b.coord = true ∨
         (checkOneCorner g a.coord b.coord).isSome = true ∨
         (checkTwoCorners g a.coord b.coord).isSome = true) := by
  cases hv1 : isValidCell g a with
  | false => simp [canConnect, hv1]
  | true =>
    cases hv2 : isValidCell g b with
    | false => simp [canConnect, hv1, hv2]
    | true =>
      by_cases hab : a = b
      · simp [canConnect, hab]
      · cases hpa : a.pattern with
        | none => simp [canConnect, hv1, hv2, hab, hpa]
        | some p1 =>
          cases hpb : b.pattern with
          | none => simp [canConnect, hv1, hv2, hab, hpa, hpb]
          | some p2 =>
            by_cases hid : p1.id = p2.id
            · simp only [canConnect, hv1, hv2, Bool.not_true, Bool.or_self,
                Bool.false_eq_true, if_false, if_neg hab, hpa, hpb, if_pos hid,
                Bool.or_eq_true]
              constructor
              · intro h
                exact ⟨trivial, trivial, hab, p1, p2, rfl, rfl, hid, by tauto⟩
              · rintro ⟨-, -, -, p, q, hp, hq, -, hgeom⟩
                tauto
            · simp only [canConnect, hv1, hv2, Bool.not_true, Bool.or_self,
                Bool.false_eq_true, if_false, if_neg hab, hpa, hpb, if_neg hid]
              constructor
              · intro h
                cases h
              · rintro ⟨-, -, -, p, q, hp, hq, hpq, -⟩
                obtain rfl : p1 = p := by injection hp
                obtain rfl : p2 = q := by injection hq
                exact absurd hpq hid

/-- Claim C9: `canConnect` is monotone in cell emptiness — on a grid of the
same dimensions that agrees on the two endpoint slots and has every empty
cell of the original still empty, any existing connection survives. -/
theorem claim9_canConnect_monotone (G Gm : Grid) (a b : Cell)
    (hrows : G.gridRows = Gm.gridRows) (hcols : G.gridCols = Gm.gridCols)
    (_hcella : G.cellAt a.row a.col = Gm.cellAt a.row a.col)
    (_hcellb : G.cellAt b.row b.col = Gm.cellAt b.row b.col)
    (hm : ∀ r c, isCellEmpty G r c = true → isCellEmpty Gm r c = true) :
    canConnect G a b = true → canConnect Gm a b = true := by
  rw [canConnect_eq_true_iff, canConnect_eq_true_iff]
  rintro ⟨hv1, hv2, hne, p, q, hp, hq, hid, hgeom⟩
  refine ⟨(isValidCell_congr hrows hcols a) ▸ hv1,
    (isValidCell_congr hrows hcols b) ▸ hv2, hne, p, q, hp, hq, hid, ?hgeom⟩
  rcases hgeom with h | h | h
  · exact Or.inl (checkStraightLine_mono hm _ _ h)
  · exact Or.inr (Or.inl (checkOneCorner_isSome_mono hm _ _ h))
  · exact Or.inr (Or.inr (checkTwoCorners_isSome_mono hrows hcols hm _ _ h))

/-- Witness for C9: `diagGrid` with its blockers... the diagonal pair
connects on `diagGrid`, and stays connected on the fully empty variant of
the same dimensions. -/
def diagGridCleared : Grid :=
  { gridRows := 2
    gridCols := 2
    cellAt := fun r c =>
      if r = 0 ∧ c = 0 then ⟨0, 0, some ⟨1⟩, true, false⟩
      else if r = 1 ∧ c = 1 then ⟨1, 1, some ⟨1⟩, true, false⟩
      else ⟨r, c, none, false, true⟩ }

theorem claim9_witness :
    canConnect diagGridCleared diagCellA diagCellB = true :=
  claim9_canConnect_monotone diagGrid diagGridCleared diagCellA diagCellB
    rfl rfl rfl rfl
    (fun r c h => by
      revert h
      unfold diagGrid diagGridCleared isCellEmpty
      exact id)
    (by decide)

/-! ### Claim C10: connection paths never leave the board -/

theorem isCellEmpty_true_bounds {g : Grid} {r c : Int}
    (h : isCellEmpty g r c = true) :
    0 ≤ r ∧ r < (g.gridRows : Int) ∧ 0 ≤ c ∧ c < (g.gridCols : Int) := by
  unfold isCellEmpty at h
  by_cases hcond : (r < 0 || (g.gridRows : Int) ≤ r || c < 0 ||
      (g.gridCols : Int) ≤ c) = true
  · rw [if_pos hcond] at h
    cases h
  · simp only [Bool.or_eq_true, decide_eq_true_iff, not_or] at hcond
    omega

theorem isValidCell_bounds {g : Grid} {c : Cell}
    (h : isValidCell g c = true) :
    0 ≤ c.row ∧ c.row < (g.gridRows : Int) ∧ 0 ≤ c.col ∧ c.col < (g.gridCols : Int) := by
  unfold isValidCell at h
  simp only [Bool.and_eq_true, decide_eq_true_iff] at h
  tauto

theorem checkOneCorner_some_valid {g : Grid} {a b c : Coord}
    (h : checkOneCorner g a b = some c) : isValidCorner g c = true := by
  unfold checkOneCorner at h
  dsimp only at h
  by_cases h1 : (isValidCorner g ⟨a.row, b.col⟩ && checkStraightLine g a ⟨a.row, b.col⟩ &&
      checkStraightLine g ⟨a.row, b.col⟩ b) = true
  · rw [if_pos h1] at h
    cases h
    simp only [Bool.and_eq_true] at h1
    exact h1.1.1
  · rw [if_neg h1] at h
    by_cases h2 : (isValidCorner g ⟨b.row, a.col⟩ && checkStraightLine g a ⟨b.row, a.col⟩ &&
        checkStraightLine g ⟨b.row, a.col⟩ b) = true
    · rw [if_pos h2] at h
      cases h
      simp only [Bool.and_eq_true] at h2
      exact h2.1.1
    · rw [if_neg h2] at h
      cases h

theorem checkTwoCorners_some_valid {g : Grid} {a b c1 c2 : Coord}
    (h : checkTwoCorners g a b = some (c1, c2)) :
    isValidCorner g c1 = true ∧ isValidCorner g c2 = true := by
  unfold checkTwoCorners at h
  cases hrf : ((intRange 0 (g.gridRows : Int)).filter
      (fun row => !(row == a.row || row == b.row))).find?
      (twoCornersRowOk g a b) with
  | some r =>
    rw [hrf] at h
    have hpred := List.find?_some hrf
    unfold twoCornersRowOk at hpred
    dsimp only at hpred
    simp only [Bool.and_eq_true] at hpred
    cases h
    exact ⟨hpred.1.1, hpred.1.2⟩
  | none =>
    rw [hrf] at h
    cases hcf : ((intRange 0 (g.gridCols : Int)).filter
        (fun col => !(col == a.col || col == b.col))).find?
        (twoCornersColOk g a b) with
    | some c =>
      rw [hcf] at h
      have hpred := List.find?_some hcf
      unfold twoCornersColOk at hpred
      dsimp only at hpred
      simp only [Bool.and_eq_true] at hpred
      cases h
      exact ⟨hpred.1.1, hpred.1.2⟩
    | none =>
      rw [hcf] at h
      cases h

/-- Claim C10: out-of-range positions are treated as blocked, and every
point of every returned connection path of an in-bounds pair lies within
the grid bounds. -/
theorem claim10_paths_stay_in_bounds (g : Grid) (a b : Cell)
    (hva : isValidCell g a = true) (hvb : isValidCell g b = true) :
    (∀ r c : Int,
      (r < 0 ∨ (g.gridRows : Int) ≤ r ∨ c < 0 ∨ (g.gridCols : Int) ≤ c) →
      isCellEmpty g r c = false) ∧
    (∀ path, getConnectionPath g a b = some path →
      ∀ pt ∈ path, 0 ≤ pt.x ∧ pt.x < (g.gridCols : Int) ∧
        0 ≤ pt.y ∧ pt.y < (g.gridRows : Int)) := by
  have hba := isValidCell_bounds hva
  have hbb := isValidCell_bounds hvb
  constructor
  · intro r c h
    unfold isCellEmpty
    rw [if_pos]
    simp only [Bool.or_eq_true, decide_eq_true_iff]
    tauto
  · intro path hpath pt hpt
    unfold getConnectionPath at hpath
    by_cases hsl : checkStraightLine g a.coord b.coord = true
    · rw [if_pos hsl] at hpath
      cases hpath
      rcases List.mem_pair.mp hpt with rfl | rfl
      · exact ⟨hba.2.2.1, hba.2.2.2, hba.1, hba.2.1⟩
      · exact ⟨hbb.2.2.1, hbb.2.2.2, hbb.1, hbb.2.1⟩
    · rw [if_neg hsl] at hpath
      cases hoc : checkOneCorner g a.coord b.coord with
      | some corner =>
        rw [hoc] at hpath
        cases hpath
        have hcv := isCellEmpty_true_bounds (checkOneCorner_some_valid hoc)
        simp only [List.mem_cons, List.not_mem_nil, or_false] at hpt
        rcases hpt with rfl | rfl | rfl
        · exact ⟨hba.2.2.1, hba.2.2.2, hba.1, hba.2.1⟩
        · exact ⟨hcv.2.2.1, hcv.2.2.2, hcv.1, hcv.2.1⟩
        · exact ⟨hbb.2.2.1, hbb.2.2.2, hbb.1, hbb.2.1⟩
      | none =>
        rw [hoc] at hpath
        cases htc : checkTwoCorners g a.coord b.coord with
        | some cc =>
          cases cc with
          | mk c1 c2 =>
            rw [htc] at hpath
            cases hpath
            have hcv := checkTwoCorners_some_valid htc
            have hb1 := isCellEmpty_true_bounds hcv.1
            have hb2 := isCellEmpty_true_bounds hcv.2
            simp only [List.mem_cons, List.not_mem_nil, or_false] at hpt
            rcases hpt with rfl | rfl | rfl | rfl
            · exact ⟨hba.2.2.1, hba.2.2.2, hba.1, hba.2.1⟩
            · exact ⟨hb1.2.2.1, hb1.2.2.2, hb1.1, hb1.2.1⟩
            · exact ⟨hb2.2.2.1, hb2.2.2.2, hb2.1, hb2.2.1⟩
            · exact ⟨hbb.2.2.1, hbb.2.2.2, hbb.1, hbb.2.1⟩
        | none =>
          rw [htc] at hpath
          cases hpath

/-- Witness for C10 at a concrete out-of-range probe on `diagGrid`. -/
theorem claim10_witness : isCellEmpty diagGrid 5 0 = false :=
  (claim10_paths_stay_in_bounds diagGrid diagCellA diagCellB
    (by decide) (by decide)).1 5 0 (by right; left; decide)

/-! ### Claim C7: the solvability check never mutates the live grid -/

theorem writeMatched_get?_ne (s : List Cell) (ref i : Nat) (h : i ≠ ref) :
    (writeMatched s ref).get? i = s.get? i := by
  unfold writeMatched
  cases hs : s.get? ref with
  | none => rfl
  | some cell =>
    dsimp only
    rw [List.get?_eq_getElem?, List.get?_eq_getElem?, List.getElem?_set_ne (Ne.symm h)]

/-- The elimination loop only ever writes through references of its grid
argument; entries below any bound under all those references are
untouched. -/
theorem simulateEliminationLoopRefs_frame (rg : RefGrid) (total base : Nat)
    (hrg : ∀ r c, base ≤ rg.refAt r c) :
    ∀ fuel elim store i, i < base →
      ((simulateEliminationLoopRefs rg total elim fuel store).2).get? i =
        store.get? i := by
  intro fuel
  induction fuel with
  | zero =>
    intro elim store i hi
    rfl
  | succ fuel ih =>
    intro elim store i hi
    unfold simulateEliminationLoopRefs
    cases hp : findAllConnectablePairsInGrid (derefGrid store rg) with
    | nil => rfl
    | cons pair rest =>
      dsimp only
      have hw1 : i ≠ rg.refAt pair.1.1.row pair.1.1.col := by
        have := hrg pair.1.1.row pair.1.1.col
        omega
      have hw2 : i ≠ rg.refAt pair.2.1.row pair.2.1.col := by
        have := hrg pair.2.1.row pair.2.1.col
        omega
      by_cases hstop : total ≤ elim + 2
      · rw [if_pos hstop]
        dsimp only
        rw [writeMatched_get?_ne _ _ _ hw2, writeMatched_get?_ne _ _ _ hw1]
      · rw [if_neg hstop]
        rw [ih _ _ i hi, writeMatched_get?_ne _ _ _ hw2,
          writeMatched_get?_ne _ _ _ hw1]

/-- Claim C7: `isBoardSolvable` leaves the live grid untouched — after the
call every store entry referenced by the live grid (its cells' pattern,
visible and matched values) is unchanged, because the elimination
simulation runs only on the fresh cells allocated by `createGridCopy`. -/
theorem claim7_solvability_check_frame (store : List Cell) (live : RefGrid)
    (hwf : ∀ r c : Int, 0 ≤ r → r < (live.gridRows : Int) →
      0 ≤ c → c < (live.gridCols : Int) → live.refAt r c < store.length) :
    ∀ r c : Int, 0 ≤ r → r < (live.gridRows : Int) →
      0 ≤ c → c < (live.gridCols : Int) →
      ((isBoardSolvableRefs store live).2).get? (live.refAt r c) =
        store.get? (live.refAt r c) := by
  intro r c h1 h2 h3 h4
  have href := hwf r c h1 h2 h3 h4
  unfold isBoardSolvableRefs
  by_cases hv : validateGameState (derefGrid store live) = true
  · rw [if_neg (by simp [hv])]
    unfold createGridCopyRefs
    dsimp only
    have hfresh : ∀ rr cc : Int, store.length ≤
        store.length + (rr.toNat * live.gridCols + cc.toNat) :=
      fun rr cc => Nat.le_add_right _ _
    rw [simulateEliminationLoopRefs_frame
      ⟨live.gridRows, live.gridCols,
        fun rr cc => store.length + (rr.toNat * live.gridCols + cc.toNat)⟩
      (live.gridRows * live.gridCols) store.length (fun rr cc => hfresh rr cc)
      _ _ _ _ href]
    rw [List.get?_eq_getElem?, List.get?_eq_getElem?]
    exact List.getElem?_append_left href
  · rw [if_pos (by simp [hv])]

/-- A concrete live board for the C7 witness: one row of two cells holding
the same pattern. -/
def claim7Store : List Cell :=
  [⟨0, 0, some ⟨1⟩, true, false⟩, ⟨0, 1, some ⟨1⟩, true, false⟩]

def claim7Live : RefGrid :=
  { gridRows := 1
    gridCols := 2
    refAt := fun r c => r.toNat * 2 + c.toNat }

theorem claim7_witness :
    ((isBoardSolvableRefs claim7Store claim7Live).2).get?
        (claim7Live.refAt 0 0) =
      claim7Store.get? (claim7Live.refAt 0 0) :=
  claim7_solvability_check_frame claim7Store claim7Live
    (by
      intro r c h1 h2 h3 h4
      unfold claim7Live at h2 h4 ⊢
      dsimp only at h2 h4 ⊢
      unfold claim7Store
      simp only [List.length_cons, List.length_nil]
      omega)
    0 0 (by decide) (by decide) (by decide) (by decide)

/-! ### Claims C6 and C8: counting and shuffling lemmas -/

theorem countP_set_add (p : α → Bool) :
    ∀ (l : List α) (i : Nat) (v : α) (h : i < l.length),
      (l.set i v).countP p + (if p (l.get ⟨i, h⟩) then 1 else 0) =
        l.countP p + (if p v then 1 else 0) := by
  intro l
  induction l with
  | nil =>
    intro i v h
    simp at h
  | cons a l ih =>
    intro i v h
    cases i with
    | zero =>
      simp only [List.set, List.countP_cons, List.get]
      omega
    | succ i =>
      simp only [List.set, List.countP_cons, List.get]
      have hlt : i < l.length := by
        simp only [List.length_cons] at h
        omega
      have := ih i v hlt
      omega

theorem length_swapEntries (l : List α) (i j : Nat) :
    (swapEntries l i j).length = l.length := by
  unfold swapEntries
  cases hgi : l.get? i with
  | none => rfl
  | some x =>
    cases hgj : l.get? j with
    | none => rfl
    | some y => simp

theorem countP_swapEntries (p : α → Bool) (l : List α) (i j : Nat) :
    (swapEntries l i j).countP p = l.countP p := by
  unfold swapEntries
  cases hgi : l.get? i with
  | none => rfl
  | some x =>
    cases hgj : l.get? j with
    | none => rfl
    | some y =>
      dsimp only
      have hi : i < l.length := by
        rw [List.get?_eq_getElem?] at hgi
        exact (List.getElem?_eq_some_iff.mp hgi).1
      have hj : j < l.length := by
        rw [List.get?_eq_getElem?] at hgj
        exact (List.getElem?_eq_some_iff.mp hgj).1
      have hgix : l.get ⟨i, hi⟩ = x := by
        have := List.get?_eq_some.mp hgi
        obtain ⟨h2, he⟩ := this
        exact he
      have hgjy : l.get ⟨j, hj⟩ = y := by
        obtain ⟨h2, he⟩ := List.get?_eq_some.mp hgj
        exact he
      have hj2 : j < (l.set i y).length := by
        rw [List.length_set]
        exact hj
      have e1 := countP_set_add p l i y hi
      have e2 := countP_set_add p (l.set i y) j x hj2
      by_cases hij : i = j
      · subst hij
        have hxy : x = y := by
          rw [hgi] at hgj
          injection hgj
        subst hxy
        have hget : (l.set i x).get ⟨i, hj2⟩ = x := by
          rw [List.get_eq_getElem, List.getElem_set_self]
        rw [hget] at e2
        rw [hgix] at e1
        omega
      · have hget : (l.set i y).get ⟨j, hj2⟩ = l.get ⟨j, hj⟩ := by
          rw [List.get_eq_getElem, List.get_eq_getElem, List.getElem_set_ne hij]
        rw [hget, hgjy] at e2
        rw [hgix] at e1
        omega

theorem shuffleLoop_fst (rand : Nat → Nat) (p : α → Bool) :
    ∀ (i : Nat) (l : List α) (k : Nat),
      ((shuffleLoop rand l i k).1).countP p = l.countP p ∧
      ((shuffleLoop rand l i k).1).length = l.length := by
  intro i
  induction i with
  | zero =>
    intro l k
    exact ⟨rfl, rfl⟩
  | succ i ih =>
    intro l k
    unfold shuffleLoop
    refine ⟨?hc, ?hl⟩
    · rw [(ih _ _).1, countP_swapEntries]
    · rw [(ih _ _).2, length_swapEntries]

theorem shuffleArray_fst (rand : Nat → Nat) (p : α → Bool) (l : List α) (k : Nat) :
    ((shuffleArray rand l k).1).countP p = l.countP p ∧
    ((shuffleArray rand l k).1).length = l.length := by
  unfold shuffleArray
  exact shuffleLoop_fst rand p _ l k

theorem shuffleTimes_fst (rand : Nat → Nat) (p : α → Bool) :
    ∀ (n : Nat) (s : List α × Nat),
      ((shuffleTimes rand n s).1).countP p = (s.1).countP p ∧
      ((shuffleTimes rand n s).1).length = (s.1).length := by
  intro n
  induction n with
  | zero =>
    intro s
    exact ⟨rfl, rfl⟩
  | succ n ih =>
    intro s
    cases s with
    | mk l k =>
      unfold shuffleTimes
      refine ⟨?hc, ?hl⟩
      · rw [(ih _).1, (shuffleArray_fst rand p l k).1]
      · rw [(ih _).2, (shuffleArray_fst rand p l k).2]

theorem mkPatternPairs_length (ap : List Pattern) :
    (mkPatternPairs ap).length = 2 * ap.length := by
  induction ap with
  | nil => rfl
  | cons a l ih =>
    unfold mkPatternPairs at ih ⊢
    simp only [List.flatMap_cons, List.length_append, ih]
    simp
    omega

theorem mkPatternPairs_countP (ap : List Pattern) (p : Pattern → Bool) :
    (mkPatternPairs ap).countP p = 2 * ap.countP p := by
  induction ap with
  | nil => rfl
  | cons a l ih =>
    unfold mkPatternPairs at ih ⊢
    simp only [List.flatMap_cons, List.countP_append, ih, List.countP_cons]
    simp only [List.countP_nil]
    omega

theorem countP_id_of_nodup (ap : List Pattern)
    (hnodup : (ap.map Pattern.id).Nodup) (id : Nat) :
    ap.countP (fun pat => pat.id == id) =
      if id ∈ ap.map Pattern.id then 1 else 0 := by
  induction ap with
  | nil => simp
  | cons a l ih =>
    simp only [List.map_cons, List.nodup_cons] at hnodup
    rw [List.countP_cons, ih hnodup.2]
    by_cases ha : a.id = id
    · have hnotin : id ∉ l.map Pattern.id := ha ▸ hnodup.1
      simp [ha, hnotin]
    · by_cases hin : id ∈ l.map Pattern.id
      · simp [ha, hin, Ne.symm ha]
      · have hne : ¬ id = a.id := fun h => ha h.symm
        simp [ha, hin, hne]

/-! Counting visible cells of a filled grid. -/

theorem countVisibleWithId_eq (g : Grid) (id : Nat) :
    countVisibleWithId g id =
      (rowMajorCoords g.gridRows g.gridCols).countP
        (fun p => visibleAt g p && cellHasId id (g.cellAt p.row p.col)) := by
  unfold countVisibleWithId getVisibleCells
  rw [← List.countP_eq_length_filter, List.countP_map, List.countP_filter]
  refine List.countP_congr ?hc
  intro p hp
  simp only [Function.comp, Bool.and_eq_true]
  tauto

theorem intRange_natCast_succ (n : Nat) :
    intRange 0 ((n + 1 : Nat) : Int) = intRange 0 (n : Int) ++ [(n : Int)] := by
  unfold intRange
  have h1 : (((n + 1 : Nat) : Int) - 0).toNat = n + 1 := by omega
  have h2 : (((n : Nat) : Int) - 0).toNat = n := by omega
  rw [h1, h2, List.range_succ, List.map_append]
  simp

theorem rowMajorCoords_succ (n cols : Nat) :
    rowMajorCoords (n + 1) cols =
      rowMajorCoords n cols ++
        (intRange 0 (cols : Int)).map (fun col => ⟨(n : Int), col⟩) := by
  unfold rowMajorCoords
  rw [intRange_natCast_succ, List.flatMap_append]
  simp

theorem countP_range_get (l : List Pattern) (p : Pattern → Bool) :
    (List.range l.length).countP
        (fun i => match l.get? i with | some pat => p pat | none => false) =
      l.countP p := by
  induction l using List.reverseRecOn with
  | nil => rfl
  | append_singleton l a ih =>
    have hlen : (l ++ [a]).length = l.length + 1 := by simp
    rw [hlen, List.range_succ, List.countP_append, List.countP_append]
    have hfirst : (List.range l.length).countP
        (fun i => match (l ++ [a]).get? i with | some pat => p pat | none => false) =
        (List.range l.length).countP
        (fun i => match l.get? i with | some pat => p pat | none => false) := by
      refine List.countP_congr ?hc
      intro i hi
      rw [List.mem_range] at hi
      rw [List.get?_eq_getElem?, List.get?_eq_getElem?, List.getElem?_append_left hi]
    have hlast : ([l.length].countP
        (fun i => match (l ++ [a]).get? i with | some pat => p pat | none => false)) =
        [a].countP p := by
      have hget : (l ++ [a]).get? l.length = some a := by
        rw [List.get?_eq_getElem?, List.getElem?_append_right (Nat.le_refl _)]
        simp
      simp [List.countP_cons, hget]
    rw [hfirst, hlast, ih]

theorem countP_range_of_le (l : List Pattern) (N : Nat) (hN : l.length ≤ N)
    (p : Pattern → Bool) :
    (List.range N).countP
        (fun i => match l.get? i with | some pat => p pat | none => false) =
      l.countP p := by
  have hsplit : N = l.length + (N - l.length) := by omega
  rw [hsplit, List.range_add, List.countP_append, countP_range_get]
  have hzero : ((List.range (N - l.length)).map (fun i => l.length + i)).countP
      (fun i => match l.get? i with | some pat => p pat | none => false) = 0 := by
    rw [List.countP_map, List.countP_eq_zero]
    intro i hi
    have hnone : l[l.length + i]? = none := List.getElem?_eq_none (by omega)
    simp [Function.comp, List.get?_eq_getElem?, hnone]
  rw [hzero]
  omega

theorem countP_rowMajor (rows cols : Nat) (f : Coord → Bool) (q : Nat → Bool)
    (hq : ∀ r c : Nat, r < rows → c < cols →
      f ⟨(r : Int), (c : Int)⟩ = q (r * cols + c)) :
    (rowMajorCoords rows cols).countP f = (List.range (rows * cols)).countP q := by
  induction rows with
  | zero =>
    have h0 : rowMajorCoords 0 cols = [] := by
      unfold rowMajorCoords intRange
      simp
    rw [h0]
    simp
  | succ n ih =>
    rw [rowMajorCoords_succ, List.countP_append,
      ih (fun r c hr hc => hq r c (by omega) hc)]
    have hrow : ((intRange 0 (cols : Int)).map
          (fun col => (⟨(n : Int), col⟩ : Coord))).countP f =
        ((List.range cols).map (fun c => n * cols + c)).countP q := by
      rw [List.countP_map, List.countP_map]
      unfold intRange
      rw [List.countP_map]
      have hc0 : (((cols : Nat) : Int) - 0).toNat = cols := by omega
      rw [hc0]
      refine List.countP_congr ?hc
      intro c hc
      rw [List.mem_range] at hc
      have hqe := hq n c (by omega) hc
      simp only [Function.comp]
      rw [show ((0 : Int) + (c : Int)) = (c : Int) by omega, hqe]
    rw [hrow, Nat.succ_mul, List.range_add, List.countP_append]

theorem fillGrid_gridRows (g : Grid) (pairs : List Pattern) :
    (fillGrid g pairs).gridRows = g.gridRows := rfl

theorem fillGrid_gridCols (g : Grid) (pairs : List Pattern) :
    (fillGrid g pairs).gridCols = g.gridCols := rfl

theorem fillGrid_cellAt_nat (g : Grid) (pairs : List Pattern) (r c : Nat)
    (hr : r < g.gridRows) (hc : c < g.gridCols) :
    (fillGrid g pairs).cellAt (r : Int) (c : Int) =
      match pairs.get? (r * g.gridCols + c) with
      | some pat =>
        { g.cellAt (r : Int) (c : Int) with
          pattern := some pat, visible := true, matched := false }
      | none =>
        { g.cellAt (r : Int) (c : Int) with visible := false, matched := true } := by
  unfold fillGrid
  dsimp only
  rw [if_pos ⟨Int.natCast_nonneg r, by exact_mod_cast hr, Int.natCast_nonneg c,
    by exact_mod_cast hc⟩]
  simp only [Int.toNat_natCast]

theorem fillGrid_count (g : Grid) (pairs : List Pattern) (id : Nat)
    (hcap : pairs.length ≤ g.gridRows * g.gridCols) :
    countVisibleWithId (fillGrid g pairs) id =
      pairs.countP (fun pat => pat.id == id) := by
  rw [countVisibleWithId_eq, fillGrid_gridRows, fillGrid_gridCols]
  rw [countP_rowMajor g.gridRows g.gridCols _
    (fun i => match pairs.get? i with | some pat => pat.id == id | none => false)
    ?hq]
  · exact countP_range_of_le pairs _ hcap _
  · intro r c hr hc
    unfold visibleAt
    rw [fillGrid_cellAt_nat g pairs r c hr hc]
    simp only [List.get?_eq_getElem?]
    cases hp : pairs[r * g.gridCols + c]? with
    | some pat => simp [cellHasId]
    | none => simp [cellHasId]

/-- Every visible cell of a freshly filled grid carries a pattern. -/
theorem fillGrid_visible_pattern (g : Grid) (pairs : List Pattern) :
    ∀ pc ∈ getVisibleCells (fillGrid g pairs), pc.2.pattern.isSome = true := by
  intro pc hpc
  unfold getVisibleCells at hpc
  rw [List.mem_map] at hpc
  obtain ⟨p, hpmem, rfl⟩ := hpc
  rw [List.mem_filter] at hpmem
  obtain ⟨hpm, hvis⟩ := hpmem
  unfold rowMajorCoords at hpm
  rw [List.mem_flatMap] at hpm
  obtain ⟨row, hrow, hpin⟩ := hpm
  rw [List.mem_map] at hpin
  obtain ⟨col, hcol, rfl⟩ := hpin
  rw [mem_intRange] at hrow hcol
  rw [fillGrid_gridRows] at hrow
  rw [fillGrid_gridCols] at hcol
  have hrn : ∃ rn : Nat, row = (rn : Int) ∧ rn < g.gridRows := by
    refine ⟨row.toNat, by omega, by omega⟩
  have hcn : ∃ cn : Nat, col = (cn : Int) ∧ cn < g.gridCols := by
    refine ⟨col.toNat, by omega, by omega⟩
  obtain ⟨rn, rfl, hrn2⟩ := hrn
  obtain ⟨cn, rfl, hcn2⟩ := hcn
  unfold visibleAt at hvis
  dsimp only at hvis ⊢
  rw [fillGrid_cellAt_nat g pairs rn cn hrn2 hcn2] at hvis ⊢
  cases hp : pairs.get? (rn * g.gridCols + cn) with
  | some pat => simp
  | none =>
    rw [hp] at hvis
    simp at hvis

/-! Reassignment of patterns during the deep reshuffle. -/

theorem setCellPattern_gridRows (g : Grid) (p : Coord) (pat : Pattern) :
    (setCellPattern g p pat).gridRows = g.gridRows := rfl

theorem setCellPattern_gridCols (g : Grid) (p : Coord) (pat : Pattern) :
    (setCellPattern g p pat).gridCols = g.gridCols := rfl

theorem setCellPattern_visible (g : Grid) (p : Coord) (pat : Pattern) (r c : Int) :
    ((setCellPattern g p pat).cellAt r c).visible = (g.cellAt r c).visible := by
  unfold setCellPattern
  dsimp only
  split <;> rfl

theorem setCellPattern_matched (g : Grid) (p : Coord) (pat : Pattern) (r c : Int) :
    ((setCellPattern g p pat).cellAt r c).matched = (g.cellAt r c).matched := by
  unfold setCellPattern
  dsimp only
  split <;> rfl

theorem setCellPattern_ne (g : Grid) (p : Coord) (pat : Pattern) (q : Coord)
    (h : q ≠ p) :
    (setCellPattern g p pat).cellAt q.row q.col = g.cellAt q.row q.col := by
  unfold setCellPattern
  dsimp only
  rw [if_neg]
  rintro ⟨h1, h2⟩
  apply h
  cases q
  cases p
  simp only at h1 h2
  rw [h1, h2]

theorem setCellPattern_self (g : Grid) (p : Coord) (pat : Pattern) :
    ((setCellPattern g p pat).cellAt p.row p.col).pattern = some pat := by
  unfold setCellPattern
  dsimp only
  rw [if_pos ⟨rfl, rfl⟩]

theorem assignPatterns_gridRows :
    ∀ (poss : List Coord) (pats : List Pattern) (g : Grid),
      (assignPatterns g poss pats).gridRows = g.gridRows := by
  intro poss
  induction poss with
  | nil =>
    intro pats g
    cases pats <;> rfl
  | cons p ps ih =>
    intro pats g
    cases pats with
    | nil => rfl
    | cons pat pats =>
      rw [assignPatterns, ih, setCellPattern_gridRows]

theorem assignPatterns_gridCols :
    ∀ (poss : List Coord) (pats : List Pattern) (g : Grid),
      (assignPatterns g poss pats).gridCols = g.gridCols := by
  intro poss
  induction poss with
  | nil =>
    intro pats g
    cases pats <;> rfl
  | cons p ps ih =>
    intro pats g
    cases pats with
    | nil => rfl
    | cons pat pats =>
      rw [assignPatterns, ih, setCellPattern_gridCols]

theorem assignPatterns_visible :
    ∀ (poss : List Coord) (pats : List Pattern) (g : Grid) (r c : Int),
      ((assignPatterns g poss pats).cellAt r c).visible = (g.cellAt r c).visible := by
  intro poss
  induction poss with
  | nil =>
    intro pats g r c
    cases pats <;> rfl
  | cons p ps ih =>
    intro pats g r c
    cases pats with
    | nil => rfl
    | cons pat pats =>
      rw [assignPatterns, ih, setCellPattern_visible]

theorem assignPatterns_matched :
    ∀ (poss : List Coord) (pats : List Pattern) (g : Grid) (r c : Int),
      ((assignPatterns g poss pats).cellAt r c).matched = (g.cellAt r c).matched := by
  intro poss
  induction poss with
  | nil =>
    intro pats g r c
    cases pats <;> rfl
  | cons p ps ih =>
    intro pats g r c
    cases pats with
    | nil => rfl
    | cons pat pats =>
      rw [assignPatterns, ih, setCellPattern_matched]

theorem assignPatterns_notmem :
    ∀ (poss : List Coord) (pats : List Pattern) (g : Grid) (q : Coord),
      q ∉ poss →
      ((assignPatterns g poss pats).cellAt q.row q.col).pattern =
        (g.cellAt q.row q.col).pattern := by
  intro poss
  induction poss with
  | nil =>
    intro pats g q _
    cases pats <;> rfl
  | cons p ps ih =>
    intro pats g q hq
    cases pats with
    | nil => rfl
    | cons pat pats =>
      have hq1 : q ≠ p := fun h => hq (h ▸ List.mem_cons_self p ps)
      have hq2 : q ∉ ps := fun h => hq (List.mem_cons_of_mem p h)
      rw [assignPatterns, ih pats (setCellPattern g p pat) q hq2,
        setCellPattern_ne g p pat q hq1]

theorem assignPatterns_countP (id : Nat) :
    ∀ (poss : List Coord) (pats : List Pattern) (g : Grid), poss.Nodup →
      poss.length = pats.length →
      poss.countP (fun p =>
        cellHasId id ((assignPatterns g poss pats).cellAt p.row p.col)) =
        pats.countP (fun pat => pat.id == id) := by
  intro poss
  induction poss with
  | nil =>
    intro pats g _ hlen
    cases pats with
    | nil => rfl
    | cons pat pats => simp at hlen
  | cons p ps ih =>
    intro pats g hnd hlen
    cases pats with
    | nil => simp at hlen
    | cons pat pats =>
      rw [assignPatterns, List.countP_cons, List.countP_cons]
      have hnotmem : p ∉ ps := (List.nodup_cons.mp hnd).1
      have hpat : ((assignPatterns (setCellPattern g p pat) ps pats).cellAt
          p.row p.col).pattern = some pat := by
        rw [assignPatterns_notmem ps pats _ p hnotmem, setCellPattern_self]
      have hthis : cellHasId id ((assignPatterns (setCellPattern g p pat) ps
          pats).cellAt p.row p.col) = (pat.id == id) := by
        unfold cellHasId
        rw [hpat]
      rw [hthis, ih pats (setCellPattern g p pat) (List.nodup_cons.mp hnd).2
        (by simpa using hlen)]

theorem rowMajorCoords_nodup (rows cols : Nat) :
    (rowMajorCoords rows cols).Nodup := by
  unfold rowMajorCoords
  rw [List.nodup_flatMap]
  constructor
  · intro r _
    exact (intRange_nodup 0 cols).map (fun c1 c2 h => by injection h)
  · refine (intRange_pairwise_lt 0 rows).imp ?himp
    intro a b hab x hxa hxb
    rw [List.mem_map] at hxa hxb
    obtain ⟨ca, _, rfl⟩ := hxa
    obtain ⟨cb, _, heq⟩ := hxb
    injection heq with h1 h2
    omega

theorem getVisibleCells_map_fst (g : Grid) :
    (getVisibleCells g).map Prod.fst =
      (rowMajorCoords g.gridRows g.gridCols).filter (visibleAt g) := by
  unfold getVisibleCells
  rw [List.map_map,
    show (Prod.fst ∘ fun p => (p, g.cellAt p.row p.col)) = (id : Coord → Coord)
      from rfl, List.map_id]

theorem filterMap_length_all_some (f : α → Option β) :
    ∀ l : List α, (∀ a ∈ l, (f a).isSome = true) →
      (l.filterMap f).length = l.length := by
  intro l
  induction l with
  | nil => intro _; rfl
  | cons a l ih =>
    intro h
    have ha := h a (by simp)
    cases hfa : f a with
    | none => rw [hfa] at ha; simp at ha
    | some b =>
      rw [List.filterMap_cons_some hfa, List.length_cons, List.length_cons,
        ih (fun x hx => h x (by simp [hx]))]

/-- The patterns of the visible cells, in scan order, determine the
per-id visible count. -/
theorem countVisibleWithId_eq_patterns (g : Grid) (id : Nat) :
    countVisibleWithId g id =
      ((getVisibleCells g).filterMap (fun pc => pc.2.pattern)).countP
        (fun pat => pat.id == id) := by
  rw [countVisibleWithId_eq]
  have hpatsP : (getVisibleCells g).filterMap (fun pc => pc.2.pattern) =
      ((rowMajorCoords g.gridRows g.gridCols).filter (visibleAt g)).filterMap
        (fun p => (g.cellAt p.row p.col).pattern) := by
    unfold getVisibleCells
    rw [List.filterMap_map]
    rfl
  rw [hpatsP, List.countP_filterMap, List.countP_filter]
  refine List.countP_congr ?hc
  intro p _
  simp only [Bool.and_eq_true]
  unfold cellHasId
  cases (g.cellAt p.row p.col).pattern <;> simp [and_comm]

/-- Writing an arbitrary pattern list of the right length onto the visible
cells in scan order makes the visible count of each id the count in that
list. -/
theorem assign_visible_count (g : Grid) (pats : List Pattern) (id : Nat)
    (hlen : ((getVisibleCells g).map Prod.fst).length = pats.length) :
    countVisibleWithId
        (assignPatterns g ((getVisibleCells g).map Prod.fst) pats) id =
      pats.countP (fun pat => pat.id == id) := by
  have hposs := getVisibleCells_map_fst g
  have hnodup : ((getVisibleCells g).map Prod.fst).Nodup := by
    rw [hposs]
    exact (rowMajorCoords_nodup _ _).filter _
  rw [countVisibleWithId_eq, assignPatterns_gridRows, assignPatterns_gridCols]
  have hcong : (rowMajorCoords g.gridRows g.gridCols).countP
      (fun p => visibleAt (assignPatterns g ((getVisibleCells g).map Prod.fst)
          pats) p &&
        cellHasId id ((assignPatterns g ((getVisibleCells g).map Prod.fst)
          pats).cellAt p.row p.col)) =
      (rowMajorCoords g.gridRows g.gridCols).countP
      (fun p => visibleAt g p &&
        cellHasId id ((assignPatterns g ((getVisibleCells g).map Prod.fst)
          pats).cellAt p.row p.col)) := by
    refine List.countP_congr ?hcv
    intro p _
    unfold visibleAt
    rw [assignPatterns_visible, assignPatterns_matched]
  rw [hcong]
  have hsplit : (rowMajorCoords g.gridRows g.gridCols).countP
      (fun p => visibleAt g p &&
        cellHasId id ((assignPatterns g ((getVisibleCells g).map Prod.fst)
          pats).cellAt p.row p.col)) =
      ((rowMajorCoords g.gridRows g.gridCols).filter (visibleAt g)).countP
      (fun p => cellHasId id ((assignPatterns g ((getVisibleCells g).map
          Prod.fst) pats).cellAt p.row p.col)) := by
    rw [List.countP_filter]
    refine List.countP_congr ?hcs
    intro p _
    simp only [Bool.and_eq_true]
    tauto
  rw [hsplit, ← hposs]
  exact assignPatterns_countP id _ pats g hnodup hlen

/-- The deep reshuffle only permutes the existing patterns among the same
visible cells, so each pattern id count over the visible cells is
preserved. -/
theorem deepReshuffleGrid_count (g : Grid) (rand : Nat → Nat) (k : Nat)
    (hvp : ∀ pc ∈ getVisibleCells g, pc.2.pattern.isSome = true) (id : Nat) :
    countVisibleWithId (deepReshuffleGrid g rand k).1 id =
      countVisibleWithId g id := by
  unfold deepReshuffleGrid
  dsimp only
  have hvpVP : ∀ p ∈ (rowMajorCoords g.gridRows g.gridCols).filter
      (visibleAt g), ((g.cellAt p.row p.col).pattern).isSome = true := by
    intro p hp
    have hmem : (p, g.cellAt p.row p.col) ∈ getVisibleCells g := by
      unfold getVisibleCells
      exact List.mem_map.mpr ⟨p, hp, rfl⟩
    exact hvp _ hmem
  have hpatsP : (getVisibleCells g).filterMap (fun pc => pc.2.pattern) =
      ((rowMajorCoords g.gridRows g.gridCols).filter (visibleAt g)).filterMap
        (fun p => (g.cellAt p.row p.col).pattern) := by
    unfold getVisibleCells
    rw [List.filterMap_map]
    rfl
  have hlenpat : ((getVisibleCells g).filterMap
      (fun pc => pc.2.pattern)).length =
      ((getVisibleCells g).map Prod.fst).length := by
    rw [hpatsP, getVisibleCells_map_fst]
    exact filterMap_length_all_some _ _ hvpVP
  have hlensh : ((shuffleTimes rand 5
      ((getVisibleCells g).filterMap (fun pc => pc.2.pattern), k)).1).length =
      ((getVisibleCells g).filterMap (fun pc => pc.2.pattern)).length :=
    (shuffleTimes_fst rand (fun _ => true) 5 _).2
  rw [assign_visible_count g _ id (by omega)]
  rw [(shuffleTimes_fst rand (fun pat => pat.id == id) 5
    ((getVisibleCells g).filterMap (fun pc => pc.2.pattern), k)).1]
  rw [← countVisibleWithId_eq_patterns]

/-- Invariant of the generate-validate loop: whatever branch returns, the
returned grid has exactly two visible unmatched cells for each chosen
pattern id and none for any other id. -/
theorem fillLoop_invariant (ap : List Pattern) (rand : Nat → Nat) (m : Nat)
    (R C : Nat) (hnodup : (ap.map Pattern.id).Nodup)
    (hcap : 2 * ap.length ≤ R * C) :
    ∀ (n retry : Nat) (g : Grid) (k : Nat), m - retry ≤ n →
      g.gridRows = R → g.gridCols = C →
      (((∀ id, countVisibleWithId g id =
          if id ∈ ap.map Pattern.id then 2 else 0) ∧
        (∀ pc ∈ getVisibleCells g, pc.2.pattern.isSome = true)) ∨ retry < m) →
      ∀ id, countVisibleWithId (fillLoop ap rand m g k retry).1 id =
        if id ∈ ap.map Pattern.id then 2 else 0 := by
  intro n
  induction n with
  | zero =>
    intro retry g k hn hgr hgc hP id
    have hge : ¬ retry < m := by omega
    rw [fillLoop, dif_neg hge]
    rcases hP with ⟨hc, _⟩ | hlt
    · exact hc id
    · omega
  | succ n ih =>
    intro retry g k hn hgr hgc hP id
    by_cases hlt : retry < m
    · rw [fillLoop, dif_pos hlt]
      have heven : ¬ (mkPatternPairs ap).length % 2 ≠ 0 := by
        rw [mkPatternPairs_length]
        omega
      rw [if_neg heven]
      dsimp only
      have hcnt : ∀ id2, countVisibleWithId
          (fillGrid g (shuffleArray rand (mkPatternPairs ap) k).1) id2 =
          if id2 ∈ ap.map Pattern.id then 2 else 0 := by
        intro id2
        have hlen : ((shuffleArray rand (mkPatternPairs ap) k).1).length ≤
            g.gridRows * g.gridCols := by
          rw [(shuffleArray_fst rand (fun _ => true) _ k).2,
            mkPatternPairs_length, hgr, hgc]
          omega
        rw [fillGrid_count _ _ _ hlen,
          (shuffleArray_fst rand (fun pat => pat.id == id2)
            (mkPatternPairs ap) k).1,
          mkPatternPairs_countP, countP_id_of_nodup ap hnodup id2]
        by_cases hmem : id2 ∈ ap.map Pattern.id <;> simp [hmem]
      have hvp1 := fillGrid_visible_pattern g
        (shuffleArray rand (mkPatternPairs ap) k).1
      by_cases hval : validateGameState
          (fillGrid g (shuffleArray rand (mkPatternPairs ap) k).1) = false
      · rw [if_pos hval]
        dsimp only
        exact ih (retry + 1) _ _ (by omega)
          (by rw [fillGrid_gridRows, hgr]) (by rw [fillGrid_gridCols, hgc])
          (Or.inl ⟨hcnt, hvp1⟩) id
      · rw [if_neg hval]
        by_cases hsolv : strictBoardValidation
            (fillGrid g (shuffleArray rand (mkPatternPairs ap) k).1) = true
        · rw [if_pos hsolv]
          exact hcnt id
        · rw [if_neg hsolv]
          by_cases hceil : m ≤ retry + 1
          · rw [if_pos hceil]
            dsimp only
            exact (deepReshuffleGrid_count _ rand _ hvp1 id).trans (hcnt id)
          · rw [if_neg hceil]
            dsimp only
            exact ih (retry + 1) _ _ (by omega)
              (by rw [fillGrid_gridRows, hgr]) (by rw [fillGrid_gridCols, hgc])
              (Or.inl ⟨hcnt, hvp1⟩) id
    · rw [fillLoop, dif_neg hlt]
      rcases hP with ⟨hc, _⟩ | hlt2
      · exact hc id
      · omega

/-- Claim C6: pairing parity of generation.  After `fillGridWithPatterns`
(including the deep-reshuffle path), every chosen pattern id occurs on
exactly 2 visible unmatched cells and every other id on 0; and
`deepReshuffleGrid` preserves the per-id visible counts because it only
permutes the existing patterns among the same visible cells. -/
theorem claim6_pairing_parity (patterns : List Pattern) (patternCount : Nat)
    (rand : Nat → Nat) (g : Grid)
    (hnodup : ((patterns.take patternCount).map Pattern.id).Nodup)
    (hcap : 2 * (patterns.take patternCount).length ≤
      g.gridRows * g.gridCols) :
    (∀ id, countVisibleWithId
        (fillGridWithPatterns patterns patternCount rand g).1 id =
        if id ∈ (patterns.take patternCount).map Pattern.id then 2 else 0) ∧
    (∀ (g2 : Grid) (rand2 : Nat → Nat) (k2 : Nat),
      (∀ pc ∈ getVisibleCells g2, pc.2.pattern.isSome = true) →
      ∀ id, countVisibleWithId (deepReshuffleGrid g2 rand2 k2).1 id =
        countVisibleWithId g2 id) := by
  constructor
  · intro id
    unfold fillGridWithPatterns
    exact fillLoop_invariant (patterns.take patternCount) rand 100
      g.gridRows g.gridCols hnodup hcap 100 0 g 0 (by omega) rfl rfl
      (Or.inr (by omega)) id
  · intro g2 rand2 k2 hvp id
    exact deepReshuffleGrid_count g2 rand2 k2 hvp id

/-- An initially empty 2-by-2 board. -/
def emptyBoard2 : Grid :=
  { gridRows := 2
    gridCols := 2
    cellAt := fun r c => ⟨r, c, none, false, true⟩ }

/-- Witness for C6: generating a 2-by-2 board from two distinct patterns
gives the chosen id 1 exactly two visible cells. -/
theorem claim6_witness :
    countVisibleWithId
        (fillGridWithPatterns [⟨1⟩, ⟨2⟩] 2 (fun _ => 0) emptyBoard2).1 1 =
      if 1 ∈ (([⟨1⟩, ⟨2⟩] : List Pattern).take 2).map Pattern.id then 2
      else 0 :=
  (claim6_pairing_parity [⟨1⟩, ⟨2⟩] 2 (fun _ => 0) emptyBoard2
    (by decide) (by decide)).1 1

/-! ### Claim C8: bounded generation -/

theorem fillLoop_bound (ap : List Pattern) (rand : Nat → Nat) (m : Nat) :
    ∀ (n retry : Nat) (g : Grid) (k : Nat), m - retry ≤ n →
      (fillLoop ap rand m g k retry).2.1 ≤ m - retry ∧
      (fillLoop ap rand m g k retry).2.2 ≤ 1 := by
  intro n
  induction n with
  | zero =>
    intro retry g k hn
    have hge : ¬ retry < m := by omega
    rw [fillLoop, dif_neg hge]
    exact ⟨Nat.zero_le _, Nat.zero_le _⟩
  | succ n ih =>
    intro retry g k hn
    by_cases hlt : retry < m
    · rw [fillLoop, dif_pos hlt]
      dsimp only
      by_cases hodd : (mkPatternPairs ap).length % 2 ≠ 0
      · rw [if_pos hodd]
        dsimp only
        obtain ⟨h1, h2⟩ := ih (retry + 1) g k (by omega)
        exact ⟨by omega, h2⟩
      · rw [if_neg hodd]
        by_cases hval : validateGameState
            (fillGrid g (shuffleArray rand (mkPatternPairs ap) k).1) = false
        · rw [if_pos hval]
          dsimp only
          obtain ⟨h1, h2⟩ := ih (retry + 1)
            (fillGrid g (shuffleArray rand (mkPatternPairs ap) k).1)
            (shuffleArray rand (mkPatternPairs ap) k).2 (by omega)
          exact ⟨by omega, h2⟩
        · rw [if_neg hval]
          by_cases hsolv : strictBoardValidation
              (fillGrid g (shuffleArray rand (mkPatternPairs ap) k).1) = true
          · rw [if_pos hsolv]
            dsimp only
            exact ⟨by omega, by omega⟩
          · rw [if_neg hsolv]
            by_cases hceil : m ≤ retry + 1
            · rw [if_pos hceil]
              dsimp only
              exact ⟨by omega, by omega⟩
            · rw [if_neg hceil]
              dsimp only
              obtain ⟨h1, h2⟩ := ih (retry + 1)
                (fillGrid g (shuffleArray rand (mkPatternPairs ap) k).1)
                (shuffleArray rand (mkPatternPairs ap) k).2 (by omega)
              exact ⟨by omega, h2⟩
    · rw [fillLoop, dif_neg hlt]
      exact ⟨Nat.zero_le _, Nat.zero_le _⟩

/-- Claim C8: for any valid configuration (even pair count within grid
capacity) the generate-validate loop of `fillGridWithPatterns` executes at
most 100 iterations and at most one deep reshuffle, and then returns a
board. -/
theorem claim8_generation_terminates (patterns : List Pattern)
    (patternCount : Nat) (rand : Nat → Nat) (g : Grid)
    (_hcap : 2 * (patterns.take patternCount).length ≤
      g.gridRows * g.gridCols) :
    (fillGridWithPatterns patterns patternCount rand g).2.1 ≤ 100 ∧
    (fillGridWithPatterns patterns patternCount rand g).2.2 ≤ 1 := by
  unfold fillGridWithPatterns
  obtain ⟨h1, h2⟩ := fillLoop_bound (patterns.take patternCount) rand 100
    100 0 g 0 (by omega)
  exact ⟨by omega, h2⟩

/-- Witness for C8 on the small concrete configuration. -/
theorem claim8_witness :
    (fillGridWithPatterns [⟨1⟩, ⟨2⟩] 2 (fun _ => 0) emptyBoard2).2.1 ≤ 100 :=
  (claim8_generation_terminates [⟨1⟩, ⟨2⟩] 2 (fun _ => 0) emptyBoard2
    (by decide)).1

end LinkGame
